import Mathlib

/-!
# Genetic algorithm (`main.c`, `random_nums.c`): a shallow embedding

The C program keeps its data in globals (`curr_gen`, `sumfitness`, `xover_count`,
`mut_count`, `oldpop`, `newpop`) and draws its randomness from the C library's `rand()`.
Here the globals are the fields of `State`, every C function is a function on `State`,
and the library generator is a pair of parameters: `RAND_MAX` and the sequence
`rand : Nat → Nat` of the values returned by successive calls of `rand()`
(`State.calls` counts the calls made so far).

`float` values are modelled by exact rationals: the quotient, products and sums are the
mathematical ones, rounding is not modelled.  `int` values are modelled by `Int`.
-/

namespace GA

/-! ## Constants and types -/

/-- `const int POPULATION_SIZE = 40;` -/
def POPULATION_SIZE : Nat := 40

/-- `const int STRING_LENGTH = 5;` -/
def STRING_LENGTH : Nat := 5

/-- `const float PMUTATION = 0.0001;` -/
def PMUTATION : ℚ := 1 / 10000

/-- `typedef bool Allele;` -/
abbrev Allele := Bool

/-- `typedef Allele Chromosome[STRING_LENGTH];`: a bit string, position 0 first. -/
abbrev Chromosome := List Allele

/-- `struct individual`. -/
structure individual where
  chrom : Chromosome
  phenotype : Int
  fitness : Int
deriving DecidableEq

/-- `typedef struct individual Population[POPULATION_SIZE];` -/
abbrev Population := List individual

/-- The program's globals, and the number of calls of `rand()` made so far. -/
structure State where
  curr_gen : Int
  sumfitness : Int
  xover_count : Int
  mut_count : Int
  oldpop : Population
  newpop : Population
  calls : Nat
deriving DecidableEq

/-! ## `random_nums.c` -/

/-- `random_real`: `(float)rand() / (float)RAND_MAX`. -/
def random_real (RAND_MAX : Nat) (rand : Nat → Nat) (s : State) : ℚ × State :=
  ((rand s.calls : ℚ) / (RAND_MAX : ℚ), { s with calls := s.calls + 1 })

/-- `flip`: true when the draw is `<= prob`. -/
def flip (RAND_MAX : Nat) (rand : Nat → Nat) (prob : ℚ) (s : State) : Bool × State :=
  let (r, s1) := random_real RAND_MAX rand s
  if r ≤ prob then (true, s1) else (false, s1)

/-- Conversion of a `float` to `int`: the fractional part is discarded (truncation
toward zero). -/
def float_to_int (q : ℚ) : Int :=
  Int.tdiv q.num (q.den : Int)

/-- `random_int`: `(random_real() * ((high-low)+1)) + low`, converted to `int` by the
`return`. -/
def random_int (RAND_MAX : Nat) (rand : Nat → Nat) (low high : Int) (s : State) :
    Int × State :=
  let (r, s1) := random_real RAND_MAX rand s
  (float_to_int (r * (((high - low) + 1 : Int) : ℚ) + (low : ℚ)), s1)

/-! ## `main.c` -/

/-- The read `oldpop[j].fitness`.  For `j` past the end of the array (the walk of
`select_indiv` reads position `POPULATION_SIZE`) the value found there is `oob`. -/
def fitness_at (oldpop : Population) (oob : Int) (j : Nat) : Int :=
  match oldpop[j]? with
  | some x => x.fitness
  | none => oob

/-- The `while` loop of `select_indiv`, from the state `(j, partial_sum)`; the first
argument bounds the number of iterations. -/
def select_loop (oldpop : Population) (oob : Int) (rand_ : ℚ) : Nat → Nat → ℚ → Nat
  | 0, j, _ => j
  | fuel + 1, j, partial_sum =>
    if partial_sum < rand_ ∧ j ≠ POPULATION_SIZE then
      select_loop oldpop oob rand_ fuel (j + 1)
        (partial_sum + (fitness_at oldpop oob (j + 1) : ℚ))
    else j

/-- `select_indiv`: roulette wheel walk over `oldpop`.  The loop runs at most
`POPULATION_SIZE` times (`j` goes up by one from 0 and the loop stops at
`j == POPULATION_SIZE`), so `POPULATION_SIZE + 1` bounds it. -/
def select_indiv (RAND_MAX : Nat) (rand : Nat → Nat) (oob : Int) (s : State) :
    Nat × State :=
  let (r, s1) := random_real RAND_MAX rand s
  (select_loop s1.oldpop oob (r * (s1.sumfitness : ℚ)) (POPULATION_SIZE + 1) 0 0, s1)

/-- `mutate`, with the probability handed to `flip` as a parameter (`pmutation` in the
comment of the source, the constant `PMUTATION` in its body). -/
def mutate_p (RAND_MAX : Nat) (rand : Nat → Nat) (pmutation : ℚ) (parentval : Allele)
    (s : State) : Allele × State :=
  let (b, s1) := flip RAND_MAX rand pmutation s
  if b then
    let s2 := { s1 with mut_count := s1.mut_count + 1 }
    if parentval then (false, s2) else (true, s2)
  else (parentval, s1)

/-- `mutate`: flips `parentval` when `flip(PMUTATION)` is true. -/
def mutate (RAND_MAX : Nat) (rand : Nat → Nat) (parentval : Allele) (s : State) :
    Allele × State :=
  mutate_p RAND_MAX rand PMUTATION parentval s

/-- The read `chrom[j]` (a position of the array; `false` past its end). -/
def allele_at (chrom : Chromosome) (j : Nat) : Allele :=
  chrom.getD j false

/-- The write `pop[i].chrom[j] = a` (no effect outside the arrays). -/
def write_allele (pop : Population) (i j : Nat) (a : Allele) : Population :=
  match pop[i]? with
  | some x => pop.set i { x with chrom := x.chrom.set j a }
  | none => pop

/-- Body of the first loop of `crossover`, at position `j`. -/
def crossover_head (RAND_MAX : Nat) (rand : Nat → Nat) (parent1 parent2 : Chromosome)
    (index : Nat) (s : State) (j : Nat) : State :=
  let (a, s1) := mutate RAND_MAX rand (allele_at parent1 j) s
  let s2 := { s1 with newpop := write_allele s1.newpop index j a }
  let (b, s3) := mutate RAND_MAX rand (allele_at parent2 j) s2
  { s3 with newpop := write_allele s3.newpop (index + 1) j b }

/-- Body of the second loop of `crossover`, at position `j`. -/
def crossover_tail (RAND_MAX : Nat) (rand : Nat → Nat) (parent1 parent2 : Chromosome)
    (index : Nat) (s : State) (j : Nat) : State :=
  let (a, s1) := mutate RAND_MAX rand (allele_at parent2 j) s
  let s2 := { s1 with newpop := write_allele s1.newpop index j a }
  let (b, s3) := mutate RAND_MAX rand (allele_at parent1 j) s2
  { s3 with newpop := write_allele s3.newpop (index + 1) j b }

/-- The cut point drawn by `crossover`: `random_int (1, STRING_LENGTH-1)`. -/
def draw_jcross (RAND_MAX : Nat) (rand : Nat → Nat) (s : State) : Int × State :=
  random_int RAND_MAX rand 1 ((STRING_LENGTH : Int) - 1) s

/-- `crossover`: the first loop runs over `j = 0 .. jcross-1`, the second over
`j = jcross .. STRING_LENGTH-1`. -/
def crossover (RAND_MAX : Nat) (rand : Nat → Nat) (parent1 parent2 : Chromosome)
    (index : Nat) (s : State) : State :=
  let (jcross, s1) := draw_jcross RAND_MAX rand s
  let s2 := (List.range jcross.toNat).foldl
    (crossover_head RAND_MAX rand parent1 parent2 index) s1
  (List.range' jcross.toNat (STRING_LENGTH - jcross.toNat)).foldl
    (crossover_tail RAND_MAX rand parent1 parent2 index) s2

/-- The loop of `decode`: the first argument is `i + 1` for the position `i` about to be
read (`i` runs from `STRING_LENGTH-1` down to 0). -/
def decode_loop (chrom : Chromosome) : Nat → Int → Int → Int
  | 0, accum, _ => accum
  | i + 1, accum, base =>
    decode_loop chrom i (accum + (if allele_at chrom i then 1 else 0) * base) (base * 2)

/-- `decode`. -/
def decode (chrom : Chromosome) : Int :=
  decode_loop chrom STRING_LENGTH 0 1

/-- `fitness`: `x * x`. -/
def fitness (x : Int) : Int :=
  x * x

/-- Body of the loop of `update_fitness`, at individual `i`. -/
def update_fitness_step (s : State) (i : Nat) : State :=
  match s.oldpop[i]? with
  | some x =>
    let x1 := { x with phenotype := decode x.chrom }
    let x2 := { x1 with fitness := fitness x1.phenotype }
    { s with oldpop := s.oldpop.set i x2, sumfitness := s.sumfitness + x2.fitness }
  | none => s

/-- `update_fitness`. -/
def update_fitness (s : State) : State :=
  (List.range POPULATION_SIZE).foldl update_fitness_step { s with sumfitness := 0 }

/-- Body of the first loop of `generation`, at slot `j`.  `oldpop[mate]` with `mate`
past the end of `oldpop` is no individual: the step does not complete. -/
def generation_step (RAND_MAX : Nat) (rand : Nat → Nat) (oob : Int) (s : State)
    (j : Nat) : Option State :=
  let (mate1, s1) := select_indiv RAND_MAX rand oob s
  let (mate2, s2) := select_indiv RAND_MAX rand oob s1
  match s2.oldpop[mate1]?, s2.oldpop[mate2]? with
  | some p1, some p2 => some (crossover RAND_MAX rand p1.chrom p2.chrom j s2)
  | _, _ => none

/-- The copy `oldpop[i].chrom[j] = newpop[i].chrom[j]` of `generation`. -/
def copy_allele (s : State) (i j : Nat) : State :=
  match s.newpop[i]? with
  | some y => { s with oldpop := write_allele s.oldpop i j (allele_at y.chrom j) }
  | none => s

/-- The copy loops of `generation`. -/
def copy_newpop (s : State) : State :=
  (List.range POPULATION_SIZE).foldl
    (fun st i => (List.range STRING_LENGTH).foldl (fun st1 j => copy_allele st1 i j) st) s

/-- `generation`: slots `j = 0, 2, 4, ...` below `POPULATION_SIZE`. -/
def generation (RAND_MAX : Nat) (rand : Nat → Nat) (oob : Int) (s : State) :
    Option State :=
  match (List.range' 0 ((POPULATION_SIZE + 1) / 2) 2).foldlM
      (generation_step RAND_MAX rand oob) s with
  | some s1 =>
    let s2 := { s1 with sumfitness := 0 }
    let s3 := copy_newpop s2
    let s4 := update_fitness s3
    some { s4 with curr_gen := s4.curr_gen + 1 }
  | none => none

/-- The globals as the program starts: zero-initialised storage. -/
def start_state : State :=
  { curr_gen := 0, sumfitness := 0, xover_count := 0, mut_count := 0,
    oldpop := List.replicate POPULATION_SIZE ⟨List.replicate STRING_LENGTH false, 0, 0⟩,
    newpop := List.replicate POPULATION_SIZE ⟨List.replicate STRING_LENGTH false, 0, 0⟩,
    calls := 0 }

/-- Whether the draw made by the `k`-th call of `rand()` makes `flip(prob)` true. -/
def flip_fires (RAND_MAX : Nat) (rand : Nat → Nat) (prob : ℚ) (k : Nat) : Bool :=
  (flip RAND_MAX rand prob { start_state with calls := k }).1

/-- The partial sum `fitness[0] + fitness[1] + ... + fitness[j]` of the roulette wheel as
the specification words it: every individual from index 0 up to and including `j`. -/
def inclusive_sum (oldpop : Population) (j : Nat) : Int :=
  ((oldpop.take (j + 1)).map individual.fitness).sum

/-- The fixed-length big-endian bit sequence of `n` as the specification words it (the
source has no encoder): position `i` holds the bit of weight `2^(STRING_LENGTH-1-i)`. -/
def encode (n : Int) : Chromosome :=
  (List.range STRING_LENGTH).map (fun i => decide (n / 2 ^ (STRING_LENGTH - 1 - i) % 2 = 1))

/-- What `update_fitness` makes of one individual. -/
def evaluated (x : individual) : individual :=
  { chrom := x.chrom, phenotype := decode x.chrom, fitness := fitness (decode x.chrom) }

/-- The individual `11111` after evaluation. -/
def ones : individual := ⟨[true, true, true, true, true], 31, 961⟩

/-- The individual `00000` after evaluation. -/
def zeros : individual := ⟨[false, false, false, false, false], 0, 0⟩

/-- An evaluated state whose individual 0 is `11111` and whose 39 others are `00000`. -/
def first_only_state : State :=
  { start_state with
    curr_gen := 1, sumfitness := 961,
    oldpop := ones :: List.replicate 39 zeros }

/-- An evaluated state whose 40 individuals all are `11111`. -/
def uniform_state : State :=
  { start_state with
    curr_gen := 1, sumfitness := 38440,
    oldpop := List.replicate 40 ones }

/-- The value of `RAND_MAX` in the GNU C library, `2^31 - 1`. -/
def GLIBC_RAND_MAX : Nat := 2147483647

/-- A sequence of values of `rand()` (each below 90) for a generator with
`RAND_MAX = 100`. -/
def sample_rand : Nat → Nat := fun k => (k * 37 + 11) % 90

/-- The two writes of one round of a loop of `crossover` when neither `mutate` flips:
`newpop[index].chrom[j] = parent1[j]; newpop[index+1].chrom[j] = parent2[j]`. -/
def pair_write (parent1 parent2 : Chromosome) (index : Nat) (np : Population) (j : Nat) :
    Population :=
  write_allele (write_allele np index j (allele_at parent1 j)) (index + 1) j
    (allele_at parent2 j)

/-- An evaluated state whose 40 individuals all are `00000`: every fitness is 0 and so is
`sumfitness`. -/
def zero_fitness_state : State :=
  { start_state with
    curr_gen := 1, sumfitness := 0,
    oldpop := List.replicate 40 zeros }

/-- The partial sum the walk of `select_indiv` holds when it stands at index `j`:
`fitness[1] + ... + fitness[j]`, individual 0 left out (0 for `j = 0`). -/
def skipping_sum (oldpop : Population) (j : Nat) : Int :=
  (((oldpop.take (j + 1)).drop 1).map individual.fitness).sum

/-- The condition under which the walk of `select_indiv` stops at index `j` for the
target `t`: `j = 0` and `t ≤ 0`, or `j ≥ 1` and `fitness[1] + ... + fitness[j] ≥ t`. -/
def walk_stops (oldpop : Population) (t : ℚ) (j : Nat) : Prop :=
  (j = 0 ∧ t ≤ 0) ∨ (1 ≤ j ∧ t ≤ (skipping_sum oldpop j : ℚ))

instance walk_stops_decidable (oldpop : Population) (t : ℚ) (j : Nat) :
    Decidable (walk_stops oldpop t j) := by
  unfold walk_stops
  infer_instance

/-- The target of the walk of `select_indiv`: `random_real() * sumfitness`. -/
def select_target (RAND_MAX : Nat) (rand : Nat → Nat) (s : State) : ℚ :=
  (random_real RAND_MAX rand s).1 * (s.sumfitness : ℚ)

/-- What the call of `mutate` that makes the `k`-th call of `rand()` returns for the
allele `a`: `not a` when `flip(PMUTATION)` is true on that draw, else `a`. -/
def mutated (RAND_MAX : Nat) (rand : Nat → Nat) (a : Allele) (k : Nat) : Allele :=
  if flip_fires RAND_MAX rand PMUTATION k then !a else a

/-- What the call of `mutate` that makes the `k`-th call of `rand()` adds to
`mut_count`. -/
def fired (RAND_MAX : Nat) (rand : Nat → Nat) (k : Nat) : Int :=
  if flip_fires RAND_MAX rand PMUTATION k then 1 else 0

/-- The parent allele that position `j` of the first child is copied from, for the cut
point `J`: `parent1[j]` below the cut, `parent2[j]` from the cut on. -/
def source_first (parent1 parent2 : Chromosome) (J : Nat) : Chromosome :=
  parent1.take J ++ parent2.drop J

/-- The number of positions at which the chromosomes `c` and `src` differ. -/
def diff_count (c src : Chromosome) : Int :=
  (List.zipWith (fun a b => if a = b then (0 : Int) else 1) c src).sum

/-- The first child that `crossover` writes when its first call of `rand()` is the call
number `c` and the cut point is `J`: position `j` is `mutate` of the allele of `parent1`
(below the cut) or `parent2`, under the draw number `c + 1 + 2 * j`. -/
def child_first (RAND_MAX : Nat) (rand : Nat → Nat) (parent1 parent2 : Chromosome)
    (J c : Nat) : Chromosome :=
  (List.range STRING_LENGTH).map (fun j =>
    mutated RAND_MAX rand (allele_at (if j < J then parent1 else parent2) j) (c + 1 + 2 * j))

/-- The second child that `crossover` writes: position `j` is `mutate` of the allele of
`parent2` (below the cut) or `parent1`, under the draw number `c + 2 + 2 * j`. -/
def child_second (RAND_MAX : Nat) (rand : Nat → Nat) (parent1 parent2 : Chromosome)
    (J c : Nat) : Chromosome :=
  (List.range STRING_LENGTH).map (fun j =>
    mutated RAND_MAX rand (allele_at (if j < J then parent2 else parent1) j) (c + 2 + 2 * j))

/-- What a call `crossover (parent1, parent2, index)` started in the state `s` may leave
different in the state `st`: nothing of `curr_gen`, `sumfitness`, `xover_count` and
`oldpop`, no slot of `newpop` but `index` and `index + 1`, and in no slot of `newpop`
the `phenotype` or `fitness` field. -/
def crossover_frame (index : Nat) (s st : State) : Prop :=
  st.curr_gen = s.curr_gen ∧ st.sumfitness = s.sumfitness ∧
  st.xover_count = s.xover_count ∧ st.oldpop = s.oldpop ∧
  st.newpop.length = s.newpop.length ∧
  (∀ k : Nat, k ≠ index → k ≠ index + 1 → st.newpop[k]? = s.newpop[k]?) ∧
  (∀ k : Nat, st.newpop[k]?.map (fun x : individual => (x.phenotype, x.fitness))
    = s.newpop[k]?.map (fun x : individual => (x.phenotype, x.fitness)))

/-- The calls of `rand()` made for one offspring pair by `generation`: two by
`select_indiv`, one for the cut point and one by each of the `2 * STRING_LENGTH` calls
of `mutate`. -/
def DRAWS_PER_PAIR : Nat := 2 + (1 + 2 * STRING_LENGTH)

/-- The index `mate1` that `generation`, started in `s`, selects for the pair number
`k`. -/
def mate_first (RAND_MAX : Nat) (rand : Nat → Nat) (oob : Int) (s : State) (k : Nat) : Nat :=
  (select_indiv RAND_MAX rand oob { s with calls := s.calls + DRAWS_PER_PAIR * k }).1

/-- The index `mate2` that `generation`, started in `s`, selects for the pair number
`k`. -/
def mate_second (RAND_MAX : Nat) (rand : Nat → Nat) (oob : Int) (s : State) (k : Nat) : Nat :=
  (select_indiv RAND_MAX rand oob { s with calls := s.calls + DRAWS_PER_PAIR * k + 1 }).1

/-- The cut point that `crossover` draws for the pair number `k` of a `generation`
started in `s`. -/
def cut_point (RAND_MAX : Nat) (rand : Nat → Nat) (s : State) (k : Nat) : Nat :=
  (draw_jcross RAND_MAX rand { s with calls := s.calls + DRAWS_PER_PAIR * k + 2 }).1.toNat

/-- The chromosome `oldpop[m].chrom` handed to `crossover` as a parent. -/
def parent_chrom (oldpop : Population) (m : Nat) : Chromosome :=
  match oldpop[m]? with
  | some x => x.chrom
  | none => []

/-- One row of the copy loops of `generation`: `oldpop[i].chrom[j] = newpop[i].chrom[j]`
for every `j`. -/
def copy_row (s : State) (i : Nat) : State :=
  (List.range STRING_LENGTH).foldl (fun st1 j => copy_allele st1 i j) s

/-- The largest value of a 32-bit signed `int`. -/
def INT_MAX : Int := 2147483647

/-- The smallest value of a 32-bit signed `int`. -/
def INT_MIN : Int := -2147483648

/-- The result of an `int` operation whose mathematical value is `x`: `x` when it lies
in the range of a 32-bit signed `int`, nothing when the operation overflows. -/
def checked (x : Int) : Option Int :=
  if INT_MIN ≤ x ∧ x ≤ INT_MAX then some x else none

/-- The loop of `decode` with every `int` operation checked: the product
`chrom[i] * base`, the sum `accum += ...` and the doubling `base *= 2`. -/
def decode_loop_checked (chrom : Chromosome) : Nat → Int → Int → Option Int
  | 0, accum, _ => some accum
  | i + 1, accum, base =>
    match checked ((if allele_at chrom i then 1 else 0) * base) with
    | some p =>
      match checked (accum + p), checked (base * 2) with
      | some a, some b => decode_loop_checked chrom i a b
      | _, _ => none
    | none => none

/-- `decode` with every `int` operation checked. -/
def decode_checked (chrom : Chromosome) : Option Int :=
  decode_loop_checked chrom STRING_LENGTH 0 1

/-- `fitness` with its multiplication checked. -/
def fitness_checked (x : Int) : Option Int :=
  checked (x * x)

/-- Body of the loop of `update_fitness` with every `int` operation checked. -/
def update_fitness_step_checked (s : State) (i : Nat) : Option State :=
  match s.oldpop[i]? with
  | some x =>
    match decode_checked x.chrom with
    | some ph =>
      match fitness_checked ph with
      | some f =>
        match checked (s.sumfitness + f) with
        | some total =>
          some { s with oldpop := s.oldpop.set i { x with phenotype := ph, fitness := f },
                        sumfitness := total }
        | none => none
      | none => none
    | none => none
  | none => some s

/-- `update_fitness` with every `int` operation checked. -/
def update_fitness_checked (s : State) : Option State :=
  (List.range POPULATION_SIZE).foldlM update_fitness_step_checked { s with sumfitness := 0 }

/-! ## Lemmas on the embedding -/

theorem chromosome_cases (c : Chromosome) (h : c.length = STRING_LENGTH) :
    ∃ a0 a1 a2 a3 a4, c = [a0, a1, a2, a3, a4] := by
  rcases c with _ | ⟨a0, _ | ⟨a1, _ | ⟨a2, _ | ⟨a3, _ | ⟨a4, _ | ⟨a5, t⟩⟩⟩⟩⟩⟩ <;>
    simp [STRING_LENGTH] at h
  exact ⟨a0, a1, a2, a3, a4, rfl⟩

theorem select_loop_fuel (oldpop : Population) (oob : Int) (t : ℚ) :
    ∀ (fuel j : Nat) (ps : ℚ), j ≤ POPULATION_SIZE → POPULATION_SIZE + 1 ≤ fuel + j →
      select_loop oldpop oob t (fuel + 1) j ps = select_loop oldpop oob t fuel j ps := by
  intro fuel
  induction fuel with
  | zero => intro j ps h1 h2; omega
  | succ n ih =>
    intro j ps h1 h2
    have e1 : select_loop oldpop oob t (n + 1 + 1) j ps
        = if ps < t ∧ j ≠ POPULATION_SIZE then
            select_loop oldpop oob t (n + 1) (j + 1)
              (ps + (fitness_at oldpop oob (j + 1) : ℚ))
          else j := rfl
    have e2 : select_loop oldpop oob t (n + 1) j ps
        = if ps < t ∧ j ≠ POPULATION_SIZE then
            select_loop oldpop oob t n (j + 1)
              (ps + (fitness_at oldpop oob (j + 1) : ℚ))
          else j := rfl
    rw [e1, e2]
    by_cases hc : ps < t ∧ j ≠ POPULATION_SIZE
    · rw [if_pos hc, if_pos hc]
      exact ih (j + 1) _ (by omega) (by omega)
    · rw [if_neg hc, if_neg hc]

theorem flip_eq (RAND_MAX : Nat) (rand : Nat → Nat) (prob : ℚ) (s : State) :
    flip RAND_MAX rand prob s
      = (flip_fires RAND_MAX rand prob s.calls, { s with calls := s.calls + 1 }) := by
  simp only [flip, flip_fires, random_real, start_state]
  split_ifs <;> rfl

theorem update_fitness_fold (s : State) :
    ∀ (suf pre : List individual) (a : Int),
      (List.range' pre.length suf.length).foldl update_fitness_step
          { s with oldpop := pre ++ suf, sumfitness := a }
        = { s with oldpop := pre ++ suf.map evaluated,
                   sumfitness := a + (suf.map (fun x => fitness (decode x.chrom))).sum } := by
  intro suf
  induction suf with
  | nil => intro pre a; simp
  | cons x suf ih =>
    intro pre a
    have h := ih (pre ++ [evaluated x]) (a + fitness (decode x.chrom))
    simp only [List.length_append, List.length_singleton, List.append_assoc,
      List.singleton_append] at h
    simp only [List.length_cons, List.range'_succ, List.foldl_cons, List.map_cons,
      List.sum_cons]
    have hstep : update_fitness_step { s with oldpop := pre ++ x :: suf, sumfitness := a }
        pre.length
        = { s with oldpop := pre ++ evaluated x :: suf,
                   sumfitness := a + fitness (decode x.chrom) } := by
      have hget : (pre ++ x :: suf)[pre.length]? = some x := by
        rw [List.getElem?_append_right (Nat.le_refl _)]; simp
      simp only [update_fitness_step, hget]
      simp [evaluated]
    rw [hstep, h, add_assoc]

theorem update_fitness_eq (s : State) (h : s.oldpop.length = POPULATION_SIZE) :
    update_fitness s
      = { s with oldpop := s.oldpop.map evaluated,
                 sumfitness := (s.oldpop.map (fun x => fitness (decode x.chrom))).sum } := by
  have := update_fitness_fold s s.oldpop [] 0
  simp only [List.length_nil, List.nil_append, zero_add, h] at this
  rw [update_fitness, List.range_eq_range']
  exact this

theorem foldl_preserves {σ ι : Type} (P : σ → Prop) (f : σ → ι → σ)
    (h : ∀ s j, P s → P (f s j)) : ∀ (l : List ι) (s : σ), P s → P (l.foldl f s) := by
  intro l
  induction l with
  | nil => intro s hs; exact hs
  | cons j l ih => intro s hs; exact ih (f s j) (h s j hs)

theorem write_allele_length (pop : Population) (i j : Nat) (a : Allele) :
    (write_allele pop i j a).length = pop.length := by
  unfold write_allele
  split <;> simp

theorem select_indiv_state (RAND_MAX : Nat) (rand : Nat → Nat) (oob : Int) (s : State) :
    (select_indiv RAND_MAX rand oob s).2 = { s with calls := s.calls + 1 } := rfl

theorem flip_fires_eq (RAND_MAX : Nat) (rand : Nat → Nat) (prob : ℚ) (k : Nat) :
    flip_fires RAND_MAX rand prob k = decide ((rand k : ℚ) / (RAND_MAX : ℚ) ≤ prob) := by
  simp only [flip_fires, flip, random_real]
  split_ifs with h <;> simp [h]

theorem mutate_no_flip (RAND_MAX : Nat) (rand : Nat → Nat) (a : Allele) (s : State)
    (h : flip_fires RAND_MAX rand PMUTATION s.calls = false) :
    mutate RAND_MAX rand a s = (a, { s with calls := s.calls + 1 }) := by
  simp [mutate, mutate_p, flip_eq, h]

theorem crossover_head_no_flip (RAND_MAX : Nat) (rand : Nat → Nat)
    (parent1 parent2 : Chromosome) (index : Nat) (s : State) (j : Nat)
    (h1 : flip_fires RAND_MAX rand PMUTATION s.calls = false)
    (h2 : flip_fires RAND_MAX rand PMUTATION (s.calls + 1) = false) :
    crossover_head RAND_MAX rand parent1 parent2 index s j
      = { s with newpop := pair_write parent1 parent2 index s.newpop j,
                 calls := s.calls + 2 } := by
  have e1 := mutate_no_flip RAND_MAX rand (allele_at parent1 j) s h1
  have e2 := mutate_no_flip RAND_MAX rand (allele_at parent2 j)
    { s with newpop := write_allele s.newpop index j (allele_at parent1 j),
             calls := s.calls + 1 } h2
  simp only [crossover_head, e1, e2, pair_write]

theorem crossover_loop_no_flip (RAND_MAX : Nat) (rand : Nat → Nat)
    (parent1 parent2 : Chromosome) (index : Nat) :
    ∀ (js : List Nat) (s : State),
      (∀ k, s.calls ≤ k → k < s.calls + 2 * js.length →
        flip_fires RAND_MAX rand PMUTATION k = false) →
      js.foldl (crossover_head RAND_MAX rand parent1 parent2 index) s
        = { s with newpop := js.foldl (pair_write parent1 parent2 index) s.newpop,
                   calls := s.calls + 2 * js.length } := by
  intro js
  induction js with
  | nil => intro s _; rfl
  | cons j js ih =>
    intro s h
    simp only [List.foldl_cons, List.length_cons]
    simp only [List.length_cons] at h
    rw [crossover_head_no_flip _ _ _ _ _ s j (h _ (le_refl _) (by omega))
      (h _ (by omega) (by omega))]
    have h3 : ∀ k, s.calls + 2 ≤ k → k < s.calls + 2 + 2 * js.length →
        flip_fires RAND_MAX rand PMUTATION k = false :=
      fun k hk1 hk2 => h k (by omega) (by omega)
    rw [ih _ h3]
    simp only [State.mk.injEq, true_and, and_true]
    omega

theorem float_to_int_nonneg (q : ℚ) (h : 0 ≤ q) : float_to_int q = ⌊q⌋ := by
  rw [float_to_int, Rat.floor_def,
    Int.tdiv_eq_ediv (Rat.num_nonneg.2 h) (Int.natCast_nonneg _)]

theorem random_real_bounds (RAND_MAX : Nat) (rand : Nat → Nat) (s : State)
    (hR : 0 < RAND_MAX) (hv : rand s.calls ≤ RAND_MAX) :
    0 ≤ (random_real RAND_MAX rand s).1 ∧ (random_real RAND_MAX rand s).1 ≤ 1 := by
  have hR1 : (0 : ℚ) < (RAND_MAX : ℚ) := by exact_mod_cast hR
  have hv1 : (rand s.calls : ℚ) ≤ (RAND_MAX : ℚ) := by exact_mod_cast hv
  simp only [random_real]
  exact ⟨by positivity, (div_le_one hR1).2 hv1⟩

theorem draw_jcross_bounds (RAND_MAX : Nat) (rand : Nat → Nat) (s : State)
    (hR : 0 < RAND_MAX) (hv : rand s.calls ≤ RAND_MAX) :
    1 ≤ (draw_jcross RAND_MAX rand s).1 ∧
    (draw_jcross RAND_MAX rand s).1 ≤ (STRING_LENGTH : Int) := by
  obtain ⟨h0, h1⟩ := random_real_bounds RAND_MAX rand s hR hv
  have e : (draw_jcross RAND_MAX rand s).1
      = float_to_int ((random_real RAND_MAX rand s).1 * 4 + 1) := by
    simp [draw_jcross, random_int, STRING_LENGTH]
  rw [e, float_to_int_nonneg _ (by positivity)]
  constructor
  · exact Int.le_floor.2 (by push_cast; linarith)
  · have : ⌊(random_real RAND_MAX rand s).1 * 4 + 1⌋ ≤ ⌊(5 : ℚ)⌋ :=
      Int.floor_le_floor (by linarith)
    simpa [STRING_LENGTH] using this

theorem write_allele_getElem? (pop : Population) (i j : Nat) (a : Allele) (k : Nat) :
    (write_allele pop i j a)[k]?
      = if k = i then pop[i]?.map (fun x => { x with chrom := x.chrom.set j a })
        else pop[k]? := by
  unfold write_allele
  by_cases hk : k = i
  · subst hk
    cases h : pop[k]? with
    | none => simp [h]
    | some x =>
      have hlt : k < pop.length := (List.getElem?_eq_some_iff.1 h).1
      simp [h, List.getElem?_set, hlt]
  · cases h : pop[i]? with
    | none => simp [hk]
    | some x => simp [hk, List.getElem?_set, Ne.symm hk]

theorem pair_writes_result (p1 p2 : Chromosome) (np : Population) (index J : Nat)
    (x y : individual) (hx : np[index]? = some x) (hy : np[index + 1]? = some y)
    (hxl : x.chrom.length = STRING_LENGTH) (hyl : y.chrom.length = STRING_LENGTH)
    (hp1 : p1.length = STRING_LENGTH) (hp2 : p2.length = STRING_LENGTH)
    (hJ1 : 1 ≤ J) (hJ5 : J ≤ STRING_LENGTH) :
    ((List.range' J (STRING_LENGTH - J)).foldl (pair_write p2 p1 index)
        ((List.range J).foldl (pair_write p1 p2 index) np))[index]?.map individual.chrom
      = some (p1.take J ++ p2.drop J) ∧
    ((List.range' J (STRING_LENGTH - J)).foldl (pair_write p2 p1 index)
        ((List.range J).foldl (pair_write p1 p2 index) np))[index + 1]?.map individual.chrom
      = some (p2.take J ++ p1.drop J) := by
  obtain ⟨a0, a1, a2, a3, a4, rfl⟩ := chromosome_cases p1 hp1
  obtain ⟨b0, b1, b2, b3, b4, rfl⟩ := chromosome_cases p2 hp2
  obtain ⟨xc, xp, xf⟩ := x
  obtain ⟨yc, yp, yf⟩ := y
  obtain ⟨c0, c1, c2, c3, c4, rfl⟩ := chromosome_cases xc hxl
  obtain ⟨d0, d1, d2, d3, d4, rfl⟩ := chromosome_cases yc hyl
  simp only [STRING_LENGTH] at hJ5 ⊢
  interval_cases J <;>
    simp [List.range_succ, List.range'_succ, pair_write, write_allele_getElem?, allele_at,
      hx, hy]

theorem skipping_sum_zero (oldpop : Population) : skipping_sum oldpop 0 = 0 := by
  cases oldpop <;> simp [skipping_sum]

theorem skipping_sum_succ (oldpop : Population) (oob : Int) (j : Nat)
    (h : j + 1 < oldpop.length) :
    skipping_sum oldpop (j + 1) = skipping_sum oldpop j + fitness_at oldpop oob (j + 1) := by
  have hget : oldpop[j + 1]? = some oldpop[j + 1] := List.getElem?_eq_getElem h
  have hlen : 1 ≤ (oldpop.take (j + 1)).length := by
    rw [List.length_take]
    omega
  simp only [skipping_sum, fitness_at, hget]
  rw [List.take_succ, hget, List.drop_append_of_le_length hlen]
  simp

theorem walk_stops_iff (oldpop : Population) (t : ℚ) (j : Nat) :
    walk_stops oldpop t j ↔ t ≤ (skipping_sum oldpop j : ℚ) := by
  unfold walk_stops
  rcases Nat.eq_zero_or_pos j with h | h
  · subst h
    simp [skipping_sum_zero]
  · constructor
    · rintro (⟨h0, _⟩ | ⟨_, h1⟩)
      · omega
      · exact h1
    · intro h1
      exact Or.inr ⟨h, h1⟩

theorem select_loop_spec (oldpop : Population) (oob : Int) (t : ℚ)
    (hlen : oldpop.length = POPULATION_SIZE) :
    ∀ (fuel j : Nat) (ps : ℚ), j ≤ POPULATION_SIZE → POPULATION_SIZE + 1 ≤ fuel + j →
      (j < POPULATION_SIZE → ps = (skipping_sum oldpop j : ℚ)) →
      j ≤ select_loop oldpop oob t fuel j ps ∧
      select_loop oldpop oob t fuel j ps ≤ POPULATION_SIZE ∧
      (select_loop oldpop oob t fuel j ps < POPULATION_SIZE →
        t ≤ (skipping_sum oldpop (select_loop oldpop oob t fuel j ps) : ℚ)) ∧
      (∀ i, j ≤ i → i < select_loop oldpop oob t fuel j ps →
        (skipping_sum oldpop i : ℚ) < t) := by
  intro fuel
  induction fuel with
  | zero => intro j ps h1 h2; omega
  | succ n ih =>
    intro j ps h1 h2 h3
    have e : select_loop oldpop oob t (n + 1) j ps
        = if ps < t ∧ j ≠ POPULATION_SIZE then
            select_loop oldpop oob t n (j + 1)
              (ps + (fitness_at oldpop oob (j + 1) : ℚ))
          else j := rfl
    rw [e]
    by_cases hc : ps < t ∧ j ≠ POPULATION_SIZE
    · rw [if_pos hc]
      have hj : j < POPULATION_SIZE := lt_of_le_of_ne h1 hc.2
      have hps : j + 1 < POPULATION_SIZE →
          ps + (fitness_at oldpop oob (j + 1) : ℚ) = (skipping_sum oldpop (j + 1) : ℚ) := by
        intro hj1
        rw [skipping_sum_succ oldpop oob j (by omega), h3 hj]
        push_cast
        rfl
      obtain ⟨r1, r2, r3, r4⟩ := ih (j + 1) _ (by omega) (by omega) hps
      refine ⟨by omega, r2, r3, ?_⟩
      intro i hi1 hi2
      rcases Nat.eq_or_lt_of_le hi1 with heq | hlt
      · rw [← heq, ← h3 hj]
        exact hc.1
      · exact r4 i hlt hi2
    · rw [if_neg hc]
      refine ⟨le_refl _, h1, ?_, ?_⟩
      · intro hj
        rw [← h3 hj]
        by_contra hlt
        exact hc ⟨not_le.1 hlt, by omega⟩
      · intro i hi1 hi2
        omega

theorem skipping_sum_mono (oldpop : Population) (hpos : ∀ x ∈ oldpop, 0 ≤ x.fitness) :
    ∀ (k i : Nat), i ≤ k → k < oldpop.length → skipping_sum oldpop i ≤ skipping_sum oldpop k := by
  intro k
  induction k with
  | zero =>
    intro i hi _
    have : i = 0 := by omega
    rw [this]
  | succ k ih =>
    intro i hi hk
    rcases Nat.eq_or_lt_of_le hi with heq | hlt
    · rw [heq]
    · have h1 := ih i (by omega) (by omega)
      rw [skipping_sum_succ oldpop 0 k hk]
      have hget : oldpop[k + 1]? = some oldpop[k + 1] := List.getElem?_eq_getElem hk
      have h2 : 0 ≤ fitness_at oldpop 0 (k + 1) := by
        simp only [fitness_at, hget]
        exact hpos _ (List.getElem_mem _)
      omega

theorem skipping_sum_last (oldpop : Population) (oob : Int)
    (hlen : oldpop.length = POPULATION_SIZE) :
    skipping_sum oldpop (POPULATION_SIZE - 1)
      = (oldpop.map individual.fitness).sum - fitness_at oldpop oob 0 := by
  cases oldpop with
  | nil => simp [POPULATION_SIZE] at hlen
  | cons x rest =>
    have h39 : rest.length = 39 := by simpa [POPULATION_SIZE] using hlen
    simp [skipping_sum, fitness_at, POPULATION_SIZE, List.take_of_length_le, h39]
theorem mutate_eq (RAND_MAX : Nat) (rand : Nat → Nat) (a : Allele) (s : State) :
    mutate RAND_MAX rand a s
      = (mutated RAND_MAX rand a s.calls,
         { s with mut_count := s.mut_count + fired RAND_MAX rand s.calls,
                  calls := s.calls + 1 }) := by
  simp only [mutate, mutate_p, flip_eq, mutated, fired]
  cases flip_fires RAND_MAX rand PMUTATION s.calls <;> cases a <;> simp

theorem crossover_head_eq (RAND_MAX : Nat) (rand : Nat → Nat)
    (parent1 parent2 : Chromosome) (index : Nat) (s : State) (j : Nat) :
    crossover_head RAND_MAX rand parent1 parent2 index s j
      = { s with
          newpop := write_allele
            (write_allele s.newpop index j (mutated RAND_MAX rand (allele_at parent1 j) s.calls))
            (index + 1) j (mutated RAND_MAX rand (allele_at parent2 j) (s.calls + 1)),
          mut_count := s.mut_count + fired RAND_MAX rand s.calls
            + fired RAND_MAX rand (s.calls + 1),
          calls := s.calls + 2 } := by
  simp only [crossover_head, mutate_eq]

theorem crossover_unfold (RAND_MAX : Nat) (rand : Nat → Nat)
    (parent1 parent2 : Chromosome) (index : Nat) (s : State) (J : Nat)
    (hJ : (draw_jcross RAND_MAX rand s).1 = (J : Int)) :
    crossover RAND_MAX rand parent1 parent2 index s
      = (List.range' J (STRING_LENGTH - J)).foldl
          (crossover_head RAND_MAX rand parent2 parent1 index)
          ((List.range J).foldl (crossover_head RAND_MAX rand parent1 parent2 index)
            { s with calls := s.calls + 1 }) := by
  have hst : (draw_jcross RAND_MAX rand s).2 = { s with calls := s.calls + 1 } := rfl
  have htail : crossover_tail RAND_MAX rand parent1 parent2 index
      = crossover_head RAND_MAX rand parent2 parent1 index := rfl
  simp only [crossover, hJ, hst, htail, Int.toNat_ofNat]

theorem crossover_result (RAND_MAX : Nat) (rand : Nat → Nat)
    (parent1 parent2 : Chromosome) (index : Nat) (s : State) (J : Nat)
    (x y : individual)
    (hJ : (draw_jcross RAND_MAX rand s).1 = (J : Int))
    (hJ1 : 1 ≤ J) (hJ5 : J ≤ STRING_LENGTH)
    (hx : s.newpop[index]? = some x) (hy : s.newpop[index + 1]? = some y)
    (hxl : x.chrom.length = STRING_LENGTH) (hyl : y.chrom.length = STRING_LENGTH) :
    (crossover RAND_MAX rand parent1 parent2 index s).mut_count
      = s.mut_count + ((List.range (2 * STRING_LENGTH)).map
          (fun k => fired RAND_MAX rand (s.calls + 1 + k))).sum ∧
    (crossover RAND_MAX rand parent1 parent2 index s).calls
      = s.calls + 1 + 2 * STRING_LENGTH ∧
    (crossover RAND_MAX rand parent1 parent2 index s).newpop[index]?
      = some { x with chrom := child_first RAND_MAX rand parent1 parent2 J s.calls } ∧
    (crossover RAND_MAX rand parent1 parent2 index s).newpop[index + 1]?
      = some { y with chrom := child_second RAND_MAX rand parent1 parent2 J s.calls } := by
  obtain ⟨xc, xp, xf⟩ := x
  obtain ⟨yc, yp, yf⟩ := y
  obtain ⟨c0, c1, c2, c3, c4, rfl⟩ := chromosome_cases xc hxl
  obtain ⟨d0, d1, d2, d3, d4, rfl⟩ := chromosome_cases yc hyl
  rw [crossover_unfold _ _ _ _ _ _ J hJ]
  simp only [STRING_LENGTH] at hJ5 ⊢
  interval_cases J <;>
    simp [List.range_succ, List.range'_succ, crossover_head_eq, write_allele_getElem?,
      child_first, child_second, STRING_LENGTH, hx, hy] <;> ring
theorem crossover_head_frame (RAND_MAX : Nat) (rand : Nat → Nat)
    (parent1 parent2 : Chromosome) (index : Nat) (s st : State) (j : Nat)
    (h : crossover_frame index s st) :
    crossover_frame index s (crossover_head RAND_MAX rand parent1 parent2 index st j) := by
  obtain ⟨h1, h2, h3, h4, h5, h6, h7⟩ := h
  rw [crossover_head_eq]
  refine ⟨h1, h2, h3, h4, ?_, ?_, ?_⟩
  · simpa [write_allele_length] using h5
  · intro k hk1 hk2
    simp only [write_allele_getElem?, if_neg hk1, if_neg hk2]
    exact h6 k hk1 hk2
  · intro k
    rw [← h7 k]
    simp only [write_allele_getElem?]
    by_cases hk2 : k = index + 1
    · subst hk2
      simp only [if_true]
      have hne : index + 1 ≠ index := by omega
      simp only [if_neg hne]
      cases st.newpop[index + 1]? <;> rfl
    · simp only [if_neg hk2]
      by_cases hk1 : k = index
      · subst hk1
        simp only [if_true]
        cases st.newpop[k]? <;> rfl
      · simp only [if_neg hk1]

theorem crossover_frame_holds (RAND_MAX : Nat) (rand : Nat → Nat)
    (parent1 parent2 : Chromosome) (index : Nat) (s : State) :
    crossover_frame index s (crossover RAND_MAX rand parent1 parent2 index s) := by
  have htail : crossover_tail RAND_MAX rand parent1 parent2 index
      = crossover_head RAND_MAX rand parent2 parent1 index := rfl
  simp only [crossover, htail]
  refine foldl_preserves (fun st : State => crossover_frame index s st) _
    (fun st j hst => crossover_head_frame _ _ _ _ _ s st j hst) _ _ ?_
  refine foldl_preserves (fun st : State => crossover_frame index s st) _
    (fun st j hst => crossover_head_frame _ _ _ _ _ s st j hst) _ _ ?_
  exact ⟨rfl, rfl, rfl, rfl, rfl, fun _ _ _ => rfl, fun _ => rfl⟩

theorem mutated_diff (RAND_MAX : Nat) (rand : Nat → Nat) (a : Allele) (k : Nat) :
    (if mutated RAND_MAX rand a k = a then (0 : Int) else 1) = fired RAND_MAX rand k := by
  simp only [mutated, fired]
  by_cases h : flip_fires RAND_MAX rand PMUTATION k = true
  · cases a <;> simp [h]
  · cases a <;> simp [h]

theorem child_diff_count (RAND_MAX : Nat) (rand : Nat → Nat)
    (parent1 parent2 : Chromosome) (J c : Nat)
    (hp1 : parent1.length = STRING_LENGTH) (hp2 : parent2.length = STRING_LENGTH)
    (hJ1 : 1 ≤ J) (hJ5 : J ≤ STRING_LENGTH) :
    diff_count (child_first RAND_MAX rand parent1 parent2 J c) (source_first parent1 parent2 J)
      + diff_count (child_second RAND_MAX rand parent1 parent2 J c)
          (source_first parent2 parent1 J)
      = ((List.range (2 * STRING_LENGTH)).map
          (fun k => fired RAND_MAX rand (c + 1 + k))).sum := by
  obtain ⟨a0, a1, a2, a3, a4, rfl⟩ := chromosome_cases parent1 hp1
  obtain ⟨b0, b1, b2, b3, b4, rfl⟩ := chromosome_cases parent2 hp2
  simp only [STRING_LENGTH] at hJ5 ⊢
  interval_cases J <;>
    simp [List.range_succ, child_first, child_second, source_first, diff_count, allele_at,
      mutated_diff, STRING_LENGTH] <;> ring

theorem child_no_flip (RAND_MAX : Nat) (rand : Nat → Nat)
    (parent1 parent2 : Chromosome) (J c : Nat)
    (hp1 : parent1.length = STRING_LENGTH) (hp2 : parent2.length = STRING_LENGTH)
    (hJ1 : 1 ≤ J) (hJ5 : J ≤ STRING_LENGTH)
    (hno : ∀ k, c + 1 ≤ k → k < c + 1 + 2 * STRING_LENGTH →
      flip_fires RAND_MAX rand PMUTATION k = false) :
    child_first RAND_MAX rand parent1 parent2 J c = source_first parent1 parent2 J ∧
    child_second RAND_MAX rand parent1 parent2 J c = source_first parent2 parent1 J := by
  obtain ⟨a0, a1, a2, a3, a4, rfl⟩ := chromosome_cases parent1 hp1
  obtain ⟨b0, b1, b2, b3, b4, rfl⟩ := chromosome_cases parent2 hp2
  have hm : ∀ (a : Allele) (k : Nat), k < 2 * STRING_LENGTH →
      mutated RAND_MAX rand a (c + 1 + k) = a := by
    intro a k hk
    simp [mutated, hno (c + 1 + k) (by omega) (by omega)]
  have h0 := fun a => hm a 0 (by decide)
  have h1 := fun a => hm a 1 (by decide)
  have h2 := fun a => hm a 2 (by decide)
  have h3 := fun a => hm a 3 (by decide)
  have h4 := fun a => hm a 4 (by decide)
  have h5 := fun a => hm a 5 (by decide)
  have h6 := fun a => hm a 6 (by decide)
  have h7 := fun a => hm a 7 (by decide)
  have h8 := fun a => hm a 8 (by decide)
  have h9 := fun a => hm a 9 (by decide)
  simp only [Nat.add_zero] at h0
  simp only [STRING_LENGTH] at hJ5 ⊢
  interval_cases J <;>
    simp [List.range_succ, child_first, child_second, source_first, allele_at,
      STRING_LENGTH, h0, h1, h2, h3, h4, h5, h6, h7, h8, h9, Nat.add_assoc]
theorem crossover_children (RAND_MAX : Nat) (rand : Nat → Nat)
    (parent1 parent2 : Chromosome) (index : Nat) (s : State) (J : Nat)
    (hR : 0 < RAND_MAX) (hv : rand s.calls ≤ RAND_MAX)
    (hlen : s.newpop.length = POPULATION_SIZE)
    (hshape : ∀ x ∈ s.newpop, x.chrom.length = STRING_LENGTH)
    (hidx : index + 1 < POPULATION_SIZE)
    (hJ : (draw_jcross RAND_MAX rand s).1 = (J : Int)) :
    1 ≤ J ∧ J ≤ STRING_LENGTH ∧
    (crossover RAND_MAX rand parent1 parent2 index s).mut_count
      = s.mut_count + ((List.range (2 * STRING_LENGTH)).map
          (fun k => fired RAND_MAX rand (s.calls + 1 + k))).sum ∧
    (crossover RAND_MAX rand parent1 parent2 index s).calls
      = s.calls + 1 + 2 * STRING_LENGTH ∧
    (crossover RAND_MAX rand parent1 parent2 index s).newpop[index]?.map individual.chrom
      = some (child_first RAND_MAX rand parent1 parent2 J s.calls) ∧
    (crossover RAND_MAX rand parent1 parent2 index s).newpop[index + 1]?.map individual.chrom
      = some (child_second RAND_MAX rand parent1 parent2 J s.calls) := by
  obtain ⟨hJ1, hJ5⟩ := draw_jcross_bounds RAND_MAX rand s hR hv
  rw [hJ] at hJ1 hJ5
  have hJ1n : 1 ≤ J := by exact_mod_cast hJ1
  have hJ5n : J ≤ STRING_LENGTH := by exact_mod_cast hJ5
  have hi0 : index < s.newpop.length := by omega
  have hi1 : index + 1 < s.newpop.length := by omega
  have hx : s.newpop[index]? = some s.newpop[index] := List.getElem?_eq_getElem hi0
  have hy : s.newpop[index + 1]? = some s.newpop[index + 1] := List.getElem?_eq_getElem hi1
  obtain ⟨r1, r2, r3, r4⟩ := crossover_result RAND_MAX rand parent1 parent2 index s J _ _ hJ
    hJ1n hJ5n hx hy (hshape _ (List.getElem_mem _)) (hshape _ (List.getElem_mem _))
  refine ⟨hJ1n, hJ5n, r1, r2, ?_, ?_⟩
  · rw [r3]; rfl
  · rw [r4]; rfl

theorem source_first_facts (p1 p2 : Chromosome) (J : Nat)
    (hp1 : p1.length = STRING_LENGTH) (hp2 : p2.length = STRING_LENGTH)
    (hJ1 : 1 ≤ J) (hJ5 : J ≤ STRING_LENGTH) :
    (∀ j, j < STRING_LENGTH →
      (allele_at (source_first p1 p2 J) j = allele_at p1 j ∧
        allele_at (source_first p2 p1 J) j = allele_at p2 j) ∨
      (allele_at (source_first p1 p2 J) j = allele_at p2 j ∧
        allele_at (source_first p2 p1 J) j = allele_at p1 j)) ∧
    (source_first p1 p2 J).count true + (source_first p2 p1 J).count true
      = p1.count true + p2.count true ∧
    (p1 = p2 → source_first p1 p2 J = p1 ∧ source_first p2 p1 J = p1) := by
  obtain ⟨a0, a1, a2, a3, a4, rfl⟩ := chromosome_cases p1 hp1
  obtain ⟨b0, b1, b2, b3, b4, rfl⟩ := chromosome_cases p2 hp2
  simp only [STRING_LENGTH] at hJ5 ⊢
  refine ⟨?_, ?_, ?_⟩
  · intro j hj
    interval_cases J <;> interval_cases j <;> simp [source_first, allele_at]
  · interval_cases J <;> simp [source_first, List.count_cons] <;> ring
  · intro h
    rw [h]
    interval_cases J <;> simp [source_first]
theorem foldl_range_induct {σ : Type} (P : Nat → σ → Prop) (f : σ → Nat → σ) (s : σ)
    (h0 : P 0 s) :
    ∀ N : Nat, (∀ n st, n < N → P n st → P (n + 1) (f st n)) →
      P N ((List.range N).foldl f s) := by
  intro N
  induction N with
  | zero => intro _; simpa using h0
  | succ N ih =>
    intro h
    rw [List.range_succ, List.foldl_append]
    simp only [List.foldl_cons, List.foldl_nil]
    exact h N _ (Nat.lt_succ_self N) (ih (fun n st hn hp => h n st (Nat.lt_succ_of_lt hn) hp))

theorem foldlM_pairs_induct {σ : Type} (P : Nat → σ → Prop) (f : σ → Nat → Option σ)
    (s : σ) (h0 : P 0 s) :
    ∀ K : Nat, (∀ n st, n < K → P n st → ∃ st1, f st (2 * n) = some st1 ∧ P (n + 1) st1) →
      ∃ st, (List.range' 0 K 2).foldlM f s = some st ∧ P K st := by
  intro K
  induction K with
  | zero => intro _; exact ⟨s, rfl, h0⟩
  | succ K ih =>
    intro h
    obtain ⟨st, hst, hp⟩ := ih (fun n st hn hp => h n st (Nat.lt_succ_of_lt hn) hp)
    obtain ⟨st1, hf, hp1⟩ := h K st (Nat.lt_succ_self K) hp
    refine ⟨st1, ?_, hp1⟩
    rw [List.range'_concat, List.foldlM_append, hst]
    simpa using hf

theorem copy_row_spec (s : State) (i : Nat) (x y : individual)
    (hx : s.oldpop[i]? = some x) (hy : s.newpop[i]? = some y)
    (hxl : x.chrom.length = STRING_LENGTH) (hyl : y.chrom.length = STRING_LENGTH) :
    (copy_row s i).newpop = s.newpop ∧ (copy_row s i).curr_gen = s.curr_gen ∧
    (copy_row s i).oldpop.length = s.oldpop.length ∧
    (∀ k : Nat, (copy_row s i).oldpop[k]?
      = if k = i then some { x with chrom := y.chrom } else s.oldpop[k]?) := by
  obtain ⟨xc, xp, xf⟩ := x
  obtain ⟨yc, yp, yf⟩ := y
  obtain ⟨c0, c1, c2, c3, c4, rfl⟩ := chromosome_cases xc hxl
  obtain ⟨d0, d1, d2, d3, d4, rfl⟩ := chromosome_cases yc hyl
  refine ⟨?_, ?_, ?_, ?_⟩
  · simp [copy_row, List.range_succ, copy_allele, STRING_LENGTH, hy]
  · simp [copy_row, List.range_succ, copy_allele, STRING_LENGTH, hy]
  · simp [copy_row, List.range_succ, copy_allele, STRING_LENGTH, hy, write_allele_length]
  · intro k
    by_cases hk : k = i
    · subst hk
      simp [copy_row, List.range_succ, copy_allele, STRING_LENGTH, hy, hx,
        write_allele_getElem?, allele_at]
    · simp [copy_row, List.range_succ, copy_allele, STRING_LENGTH, hy,
        write_allele_getElem?, hk]

theorem copy_newpop_spec (s : State) (hold : s.oldpop.length = POPULATION_SIZE)
    (hnew : s.newpop.length = POPULATION_SIZE)
    (hso : ∀ (k : Nat) (x : individual), s.oldpop[k]? = some x → x.chrom.length = STRING_LENGTH)
    (hsn : ∀ (k : Nat) (x : individual), s.newpop[k]? = some x → x.chrom.length = STRING_LENGTH) :
    (copy_newpop s).curr_gen = s.curr_gen ∧
    (copy_newpop s).oldpop.length = POPULATION_SIZE ∧
    (∀ k : Nat, (copy_newpop s).oldpop[k]?.map individual.chrom
      = s.newpop[k]?.map individual.chrom) ∧
    (copy_newpop s).newpop = s.newpop := by
  have key := foldl_range_induct
    (fun (n : Nat) (st : State) => st.newpop = s.newpop ∧ st.curr_gen = s.curr_gen ∧
      st.oldpop.length = POPULATION_SIZE ∧
      (∀ k : Nat, k < n → st.oldpop[k]?.map individual.chrom
        = s.newpop[k]?.map individual.chrom) ∧
      (∀ k : Nat, n ≤ k → st.oldpop[k]? = s.oldpop[k]?))
    copy_row s ⟨rfl, rfl, hold, fun k hk => absurd hk (Nat.not_lt_zero k), fun _ _ => rfl⟩
    POPULATION_SIZE (by
      intro n st hn ⟨h1, h2, h3, h4, h5⟩
      have hlto : n < st.oldpop.length := by omega
      have hltn : n < st.newpop.length := by rw [h1]; omega
      have hxo : st.oldpop[n]? = some st.oldpop[n] := List.getElem?_eq_getElem hlto
      have hyn : st.newpop[n]? = some st.newpop[n] := List.getElem?_eq_getElem hltn
      have hxl : (st.oldpop[n]).chrom.length = STRING_LENGTH :=
        hso n _ (by rw [← h5 n (le_refl _)]; exact hxo)
      have hyl : (st.newpop[n]).chrom.length = STRING_LENGTH :=
        hsn n _ (by rw [← h1]; exact hyn)
      obtain ⟨r1, r2, r3, r4⟩ := copy_row_spec st n _ _ hxo hyn hxl hyl
      refine ⟨r1.trans h1, r2.trans h2, r3.trans h3, ?_, ?_⟩
      · intro k hk
        rw [r4 k]
        by_cases hkn : k = n
        · subst hkn
          simp only [if_true, Option.map_some']
          rw [← h1, hyn]
          rfl
        · rw [if_neg hkn]
          exact h4 k (by omega)
      · intro k hk
        rw [r4 k, if_neg (by omega)]
        exact h5 k (by omega))
  obtain ⟨h1, h2, h3, h4, -⟩ := key
  have hcopy : copy_newpop s = (List.range POPULATION_SIZE).foldl copy_row s := rfl
  rw [hcopy]
  refine ⟨h2, h3, ?_, h1⟩
  intro k
  by_cases hk : k < POPULATION_SIZE
  · exact h4 k hk
  · rw [List.getElem?_eq_none (by omega), List.getElem?_eq_none (by omega)]
theorem select_indiv_congr (RAND_MAX : Nat) (rand : Nat → Nat) (oob : Int) (s st : State)
    (h1 : st.oldpop = s.oldpop) (h2 : st.sumfitness = s.sumfitness)
    (h3 : st.calls = s.calls) :
    (select_indiv RAND_MAX rand oob st).1 = (select_indiv RAND_MAX rand oob s).1 := by
  simp [select_indiv, random_real, h1, h2, h3]

theorem draw_jcross_congr (RAND_MAX : Nat) (rand : Nat → Nat) (s st : State)
    (h3 : st.calls = s.calls) :
    (draw_jcross RAND_MAX rand st).1 = (draw_jcross RAND_MAX rand s).1 := by
  simp [draw_jcross, random_int, random_real, h3]

theorem source_first_length (p1 p2 : Chromosome) (J : Nat)
    (hp1 : p1.length = STRING_LENGTH) (hp2 : p2.length = STRING_LENGTH)
    (hJ5 : J ≤ STRING_LENGTH) : (source_first p1 p2 J).length = STRING_LENGTH := by
  simp only [source_first, List.length_append, List.length_take, List.length_drop, hp1, hp2]
  omega

theorem generation_step_spec (RAND_MAX : Nat) (rand : Nat → Nat) (oob : Int)
    (s st : State) (j m1 m2 : Nat)
    (hR : 0 < RAND_MAX) (hv : rand (st.calls + 2) ≤ RAND_MAX)
    (hold : s.oldpop.length = POPULATION_SIZE)
    (hso : ∀ x ∈ s.oldpop, x.chrom.length = STRING_LENGTH)
    (ho : st.oldpop = s.oldpop) (hsum : st.sumfitness = s.sumfitness)
    (hnew : st.newpop.length = POPULATION_SIZE)
    (hsn : ∀ (k : Nat) (x : individual), st.newpop[k]? = some x →
      x.chrom.length = STRING_LENGTH)
    (hj : j + 1 < POPULATION_SIZE)
    (hm1 : (select_indiv RAND_MAX rand oob st).1 = m1)
    (hm2 : (select_indiv RAND_MAX rand oob { st with calls := st.calls + 1 }).1 = m2)
    (hm1v : m1 < POPULATION_SIZE) (hm2v : m2 < POPULATION_SIZE)
    (hno : ∀ i, i < 2 * STRING_LENGTH →
      flip_fires RAND_MAX rand PMUTATION (st.calls + 3 + i) = false) :
    ∃ st1, generation_step RAND_MAX rand oob st j = some st1 ∧
      st1.oldpop = s.oldpop ∧ st1.sumfitness = s.sumfitness ∧
      st1.curr_gen = st.curr_gen ∧ st1.calls = st.calls + DRAWS_PER_PAIR ∧
      st1.newpop.length = POPULATION_SIZE ∧
      (∀ (k : Nat) (x : individual), st1.newpop[k]? = some x →
        x.chrom.length = STRING_LENGTH) ∧
      (∀ k : Nat, k ≠ j → k ≠ j + 1 → st1.newpop[k]? = st.newpop[k]?) ∧
      st1.newpop[j]?.map individual.chrom
        = some (source_first (parent_chrom s.oldpop m1) (parent_chrom s.oldpop m2)
            (draw_jcross RAND_MAX rand { st with calls := st.calls + 2 }).1.toNat) ∧
      st1.newpop[j + 1]?.map individual.chrom
        = some (source_first (parent_chrom s.oldpop m2) (parent_chrom s.oldpop m1)
            (draw_jcross RAND_MAX rand { st with calls := st.calls + 2 }).1.toNat) := by
  have hlt1 : m1 < s.oldpop.length := by omega
  have hlt2 : m2 < s.oldpop.length := by omega
  have hp1 : s.oldpop[m1]? = some s.oldpop[m1] := List.getElem?_eq_getElem hlt1
  have hp2 : s.oldpop[m2]? = some s.oldpop[m2] := List.getElem?_eq_getElem hlt2
  have a1 : select_indiv RAND_MAX rand oob st = (m1, { st with calls := st.calls + 1 }) := by
    rw [← hm1]; rfl
  have a2 : select_indiv RAND_MAX rand oob { st with calls := st.calls + 1 }
      = (m2, { st with calls := st.calls + 2 }) := by
    rw [← hm2]; rfl
  have hstep : generation_step RAND_MAX rand oob st j
      = some (crossover RAND_MAX rand (s.oldpop[m1]).chrom (s.oldpop[m2]).chrom j
          { st with calls := st.calls + 2 }) := by
    simp only [generation_step, a1, a2]
    simp only [ho, hp1, hp2]
  have hc1 : parent_chrom s.oldpop m1 = (s.oldpop[m1]).chrom := by
    simp only [parent_chrom, hp1]
  have hc2 : parent_chrom s.oldpop m2 = (s.oldpop[m2]).chrom := by
    simp only [parent_chrom, hp2]
  have hl1 : ((s.oldpop[m1]).chrom).length = STRING_LENGTH := hso _ (List.getElem_mem _)
  have hl2 : ((s.oldpop[m2]).chrom).length = STRING_LENGTH := hso _ (List.getElem_mem _)
  obtain ⟨hb1, -⟩ := draw_jcross_bounds RAND_MAX rand { st with calls := st.calls + 2 } hR hv
  have hJ : (draw_jcross RAND_MAX rand { st with calls := st.calls + 2 }).1
      = (((draw_jcross RAND_MAX rand { st with calls := st.calls + 2 }).1.toNat : Nat) : Int) :=
    (Int.toNat_of_nonneg (by omega)).symm
  have hshape : ∀ x ∈ st.newpop, x.chrom.length = STRING_LENGTH := by
    intro x hx
    obtain ⟨k, hk⟩ := List.mem_iff_getElem?.1 hx
    exact hsn k x hk
  obtain ⟨hJ1, hJ5, -, r2, r3, r4⟩ := crossover_children RAND_MAX rand (s.oldpop[m1]).chrom
    (s.oldpop[m2]).chrom j { st with calls := st.calls + 2 } _ hR hv hnew hshape hj hJ
  obtain ⟨e1, e2⟩ := child_no_flip RAND_MAX rand (s.oldpop[m1]).chrom (s.oldpop[m2]).chrom
    _ (st.calls + 2) hl1 hl2 hJ1 hJ5 (by
      intro k hk1 hk2
      have := hno (k - (st.calls + 3)) (by omega)
      rwa [show st.calls + 3 + (k - (st.calls + 3)) = k by omega] at this)
  obtain ⟨f1, f2, -, f4, f5, f6, -⟩ := crossover_frame_holds RAND_MAX rand
    (s.oldpop[m1]).chrom (s.oldpop[m2]).chrom j { st with calls := st.calls + 2 }
  simp only [] at r2 r3 r4 e1 e2 f1 f2 f4 f5 f6
  rw [e1] at r3
  rw [e2] at r4
  refine ⟨_, hstep, f4.trans ho, f2.trans hsum, f1, ?_, f5.trans hnew, ?_, f6, ?_, ?_⟩
  · rw [r2]
    simp only [DRAWS_PER_PAIR]
    omega
  · intro k x hk
    by_cases hkj : k = j
    · subst hkj
      rw [hk] at r3
      simp only [Option.map_some', Option.some.injEq] at r3
      rw [r3]
      exact source_first_length _ _ _ hl1 hl2 hJ5
    · by_cases hkj1 : k = j + 1
      · subst hkj1
        rw [hk] at r4
        simp only [Option.map_some', Option.some.injEq] at r4
        rw [r4]
        exact source_first_length _ _ _ hl2 hl1 hJ5
      · rw [f6 k hkj hkj1] at hk
        exact hsn k x hk
  · rw [hc1, hc2]; exact r3
  · rw [hc1, hc2]; exact r4
theorem generation_of_loop (RAND_MAX : Nat) (rand : Nat → Nat) (oob : Int) (s st : State)
    (hloop : (List.range' 0 ((POPULATION_SIZE + 1) / 2) 2).foldlM
      (generation_step RAND_MAX rand oob) s = some st) :
    generation RAND_MAX rand oob s
      = some { update_fitness (copy_newpop { st with sumfitness := 0 }) with
          curr_gen := (update_fitness (copy_newpop { st with sumfitness := 0 })).curr_gen + 1 } := by
  unfold generation
  split
  · rename_i s1 h1
    rw [hloop] at h1
    cases h1
    rfl
  · rename_i h1
    rw [hloop] at h1
    cases h1
theorem generation_result (RAND_MAX : Nat) (rand : Nat → Nat) (oob : Int) (s st : State)
    (hloop : (List.range' 0 ((POPULATION_SIZE + 1) / 2) 2).foldlM
      (generation_step RAND_MAX rand oob) s = some st)
    (hc : (copy_newpop { st with sumfitness := 0 }).oldpop.length = POPULATION_SIZE) :
    ∃ s1, generation RAND_MAX rand oob s = some s1 ∧
      s1.curr_gen = (copy_newpop { st with sumfitness := 0 }).curr_gen + 1 ∧
      s1.oldpop = (copy_newpop { st with sumfitness := 0 }).oldpop.map evaluated ∧
      s1.newpop = (copy_newpop { st with sumfitness := 0 }).newpop ∧
      s1.sumfitness = (s1.oldpop.map individual.fitness).sum := by
  have hgen := generation_of_loop RAND_MAX rand oob s st hloop
  generalize copy_newpop { st with sumfitness := 0 } = c at hc hgen ⊢
  rw [update_fitness_eq c hc] at hgen
  refine ⟨_, hgen, rfl, rfl, rfl, ?_⟩
  simp only [List.map_map]
  rfl

theorem generation_pairs (RAND_MAX : Nat) (rand : Nat → Nat) (oob : Int) (s : State)
    (hR : 0 < RAND_MAX) (hv : ∀ n, rand n ≤ RAND_MAX)
    (hold : s.oldpop.length = POPULATION_SIZE) (hnew : s.newpop.length = POPULATION_SIZE)
    (hso : ∀ x ∈ s.oldpop, x.chrom.length = STRING_LENGTH)
    (hsn : ∀ x ∈ s.newpop, x.chrom.length = STRING_LENGTH)
    (hmates : ∀ k, k < POPULATION_SIZE / 2 →
      mate_first RAND_MAX rand oob s k < POPULATION_SIZE ∧
      mate_second RAND_MAX rand oob s k < POPULATION_SIZE)
    (hno : ∀ k, k < POPULATION_SIZE / 2 → ∀ i, i < 2 * STRING_LENGTH →
      flip_fires RAND_MAX rand PMUTATION (s.calls + DRAWS_PER_PAIR * k + 3 + i) = false) :
    ∃ s1, generation RAND_MAX rand oob s = some s1 ∧
      s1.curr_gen = s.curr_gen + 1 ∧ s1.oldpop.length = POPULATION_SIZE ∧
      s1.newpop.length = POPULATION_SIZE ∧
      (∀ x ∈ s1.newpop, x.chrom.length = STRING_LENGTH) ∧
      (∀ x ∈ s1.oldpop, x = evaluated x) ∧
      s1.sumfitness = (s1.oldpop.map individual.fitness).sum ∧
      ∀ k, k < POPULATION_SIZE / 2 →
        s1.oldpop[2 * k]?.map individual.chrom
          = some (source_first (parent_chrom s.oldpop (mate_first RAND_MAX rand oob s k))
              (parent_chrom s.oldpop (mate_second RAND_MAX rand oob s k))
              (cut_point RAND_MAX rand s k)) ∧
        s1.oldpop[2 * k + 1]?.map individual.chrom
          = some (source_first (parent_chrom s.oldpop (mate_second RAND_MAX rand oob s k))
              (parent_chrom s.oldpop (mate_first RAND_MAX rand oob s k))
              (cut_point RAND_MAX rand s k)) := by
  have hsn0 : ∀ (k : Nat) (x : individual), s.newpop[k]? = some x →
      x.chrom.length = STRING_LENGTH :=
    fun k x hk => hsn x (List.mem_iff_getElem?.2 ⟨k, hk⟩)
  have hso0 : ∀ (k : Nat) (x : individual), s.oldpop[k]? = some x →
      x.chrom.length = STRING_LENGTH :=
    fun k x hk => hso x (List.mem_iff_getElem?.2 ⟨k, hk⟩)
  obtain ⟨st, hloop, h1, h2, h3, -, h5, h6, h7⟩ := foldlM_pairs_induct
    (fun (n : Nat) (st : State) =>
      st.oldpop = s.oldpop ∧ st.sumfitness = s.sumfitness ∧ st.curr_gen = s.curr_gen ∧
      st.calls = s.calls + DRAWS_PER_PAIR * n ∧ st.newpop.length = POPULATION_SIZE ∧
      (∀ (k : Nat) (x : individual), st.newpop[k]? = some x →
        x.chrom.length = STRING_LENGTH) ∧
      (∀ i, i < n →
        st.newpop[2 * i]?.map individual.chrom
          = some (source_first (parent_chrom s.oldpop (mate_first RAND_MAX rand oob s i))
              (parent_chrom s.oldpop (mate_second RAND_MAX rand oob s i))
              (cut_point RAND_MAX rand s i)) ∧
        st.newpop[2 * i + 1]?.map individual.chrom
          = some (source_first (parent_chrom s.oldpop (mate_second RAND_MAX rand oob s i))
              (parent_chrom s.oldpop (mate_first RAND_MAX rand oob s i))
              (cut_point RAND_MAX rand s i))))
    (generation_step RAND_MAX rand oob) s
    ⟨rfl, rfl, rfl, by simp, hnew, hsn0, fun i hi => absurd hi (Nat.not_lt_zero i)⟩
    (POPULATION_SIZE / 2) (by
      intro n st hn ⟨g1, g2, g3, g4, g5, g6, g7⟩
      have hn20 : n < 20 := hn
      have hm1 : (select_indiv RAND_MAX rand oob st).1 = mate_first RAND_MAX rand oob s n :=
        select_indiv_congr _ _ _ _ st g1 g2 g4
      have hm2 : (select_indiv RAND_MAX rand oob { st with calls := st.calls + 1 }).1
          = mate_second RAND_MAX rand oob s n :=
        select_indiv_congr _ _ _ _ _ g1 g2 (by simp only [g4])
      have hcut : (draw_jcross RAND_MAX rand { st with calls := st.calls + 2 }).1.toNat
          = cut_point RAND_MAX rand s n := by
        simp only [cut_point]
        rw [draw_jcross_congr RAND_MAX rand
          { s with calls := s.calls + DRAWS_PER_PAIR * n + 2 }
          { st with calls := st.calls + 2 } (by simp only [g4])]
      obtain ⟨st1, q0, q1, q2, q3, q4, q5, q6, q7, q8, q9⟩ := generation_step_spec RAND_MAX
        rand oob s st (2 * n) _ _ hR (hv _) hold hso g1 g2 g5 g6
        (by simp only [POPULATION_SIZE]; omega) hm1 hm2 (hmates n hn).1 (hmates n hn).2
        (by
          intro i hi
          rw [g4]
          exact hno n hn i hi)
      rw [hcut] at q8 q9
      refine ⟨st1, q0, q1, q2, q3.trans g3, ?_, q5, q6, ?_⟩
      · rw [q4, g4, Nat.mul_succ]
        omega
      · intro i hi
        rcases Nat.eq_or_lt_of_le (Nat.le_of_lt_succ hi) with heq | hlt
        · rw [heq]
          exact ⟨q8, q9⟩
        · rw [q7 (2 * i) (by omega) (by omega), q7 (2 * i + 1) (by omega) (by omega)]
          exact g7 i hlt)
  obtain ⟨c1, c2, c3, c4⟩ := copy_newpop_spec { st with sumfitness := 0 }
    (by simp only [h1, hold]) h5
    (fun k x hk => hso0 k x (by simpa only [h1] using hk)) h6
  simp only [] at c1 c3 c4
  have hK : (POPULATION_SIZE + 1) / 2 = POPULATION_SIZE / 2 := by decide
  rw [← hK] at hloop
  obtain ⟨s1, hgen, e1, e2, e3, e4⟩ := generation_result RAND_MAX rand oob s st hloop c2
  refine ⟨s1, hgen, ?_, ?_, ?_, ?_, ?_, e4, ?_⟩
  · rw [e1, c1, h3]
  · rw [e2]
    simpa using c2
  · rw [e3, c4]
    exact h5
  · intro x hx
    rw [e3, c4] at hx
    obtain ⟨k, hk⟩ := List.mem_iff_getElem?.1 hx
    exact h6 k x hk
  · intro x hx
    rw [e2] at hx
    obtain ⟨y, -, rfl⟩ := List.mem_map.1 hx
    rfl
  · intro k hk
    have e : ∀ i : Nat, s1.oldpop[i]?.map individual.chrom
        = st.newpop[i]?.map individual.chrom := by
      intro i
      rw [e2, ← c3 i, List.getElem?_map, Option.map_map]
      rfl
    simp only [e]
    exact h7 k hk

theorem decode_bounds (c : Chromosome) (h : c.length = STRING_LENGTH) :
    0 ≤ decode c ∧ decode c ≤ 31 ∧ 0 ≤ fitness (decode c) ∧ fitness (decode c) ≤ 961 ∧
    decode_checked c = some (decode c) ∧
    fitness_checked (decode c) = some (fitness (decode c)) := by
  obtain ⟨a0, a1, a2, a3, a4, rfl⟩ := chromosome_cases c h
  revert a0 a1 a2 a3 a4
  decide

theorem checked_of_bounds (x : Int) (h0 : 0 ≤ x) (h1 : x ≤ INT_MAX) : checked x = some x := by
  have h2 : INT_MIN ≤ x := le_trans (by decide) h0
  simp [checked, h1, h2]

theorem update_fitness_checked_fold (s : State) :
    ∀ (suf pre : List individual) (a : Int),
      (∀ x ∈ suf, x.chrom.length = STRING_LENGTH) → 0 ≤ a →
      a + 961 * (suf.length : Int) ≤ INT_MAX →
      (List.range' pre.length suf.length).foldlM update_fitness_step_checked
          { s with oldpop := pre ++ suf, sumfitness := a }
        = some { s with oldpop := pre ++ suf.map evaluated,
                        sumfitness := a + (suf.map (fun x => fitness (decode x.chrom))).sum } := by
  intro suf
  induction suf with
  | nil => intro pre a _ _ _; simp
  | cons x suf ih =>
    intro pre a hsh h0 h1
    obtain ⟨d1, d2, d3, d4, d5, d6⟩ := decode_bounds x.chrom (hsh x (List.mem_cons_self _ _))
    have hlen : ((x :: suf).length : Int) = (suf.length : Int) + 1 := by
      simp
    rw [hlen] at h1
    have hget : (pre ++ x :: suf)[pre.length]? = some x := by
      rw [List.getElem?_append_right (Nat.le_refl _)]; simp
    have hsum : checked (a + fitness (decode x.chrom)) = some (a + fitness (decode x.chrom)) :=
      checked_of_bounds _ (by omega) (by
        have : (0 : Int) ≤ 961 * (suf.length : Int) := by positivity
        omega)
    have hstep : update_fitness_step_checked
        { s with oldpop := pre ++ x :: suf, sumfitness := a } pre.length
        = some { s with oldpop := pre ++ evaluated x :: suf,
                        sumfitness := a + fitness (decode x.chrom) } := by
      simp only [update_fitness_step_checked, hget, d5, d6, hsum]
      simp [evaluated]
    have h := ih (pre ++ [evaluated x]) (a + fitness (decode x.chrom))
      (fun y hy => hsh y (List.mem_cons_of_mem _ hy)) (by omega) (by omega)
    simp only [List.length_append, List.length_singleton, List.append_assoc,
      List.singleton_append] at h
    simp only [List.length_cons, List.range'_succ, List.foldlM_cons, List.map_cons,
      List.sum_cons, hstep, Option.bind_eq_bind, Option.some_bind]
    rw [h, add_assoc]

theorem fitness_sum_bounds (l : List individual)
    (hsh : ∀ x ∈ l, x.chrom.length = STRING_LENGTH) :
    0 ≤ (l.map (fun x => fitness (decode x.chrom))).sum ∧
    (l.map (fun x => fitness (decode x.chrom))).sum ≤ 961 * (l.length : Int) := by
  induction l with
  | nil => simp
  | cons x l ih =>
    obtain ⟨-, -, d3, d4, -, -⟩ := decode_bounds x.chrom (hsh x (List.mem_cons_self _ _))
    obtain ⟨i1, i2⟩ := ih (fun y hy => hsh y (List.mem_cons_of_mem _ hy))
    simp only [List.map_cons, List.sum_cons, List.length_cons]
    push_cast
    constructor <;> omega

/-! ## The claims -/

/-- C1 (the code at a failing input): with individual 0 the only one of positive fitness
and a draw near one half, the walk of `select_indiv` returns `POPULATION_SIZE`, which is
no index of `oldpop`, whatever value is read past the end of the array. -/
theorem select_indiv_out_of_range (oob : Int) :
    (select_indiv GLIBC_RAND_MAX (fun _ => 1073741824) oob first_only_state).1
      = POPULATION_SIZE := by
  simp [select_indiv, random_real, select_loop, fitness_at, first_only_state, start_state,
    ones, zeros, POPULATION_SIZE, GLIBC_RAND_MAX, List.replicate]

/-- C2 (the code at a failing input): in a population of 40 individuals of fitness 961
and with a draw of about 1/16 (target about 2402.5), the least index whose inclusive
partial sum reaches the target is 2, and `select_indiv` returns 3 (whatever lies past
the end of the array). -/
theorem select_indiv_skips_first (oob : Int) :
    (∀ k, k < 2 → (inclusive_sum uniform_state.oldpop k : ℚ)
        < (random_real GLIBC_RAND_MAX (fun _ => 134217728) uniform_state).1
            * (uniform_state.sumfitness : ℚ)) ∧
    (random_real GLIBC_RAND_MAX (fun _ => 134217728) uniform_state).1
        * (uniform_state.sumfitness : ℚ) ≤ (inclusive_sum uniform_state.oldpop 2 : ℚ) ∧
    (select_indiv GLIBC_RAND_MAX (fun _ => 134217728) oob uniform_state).1 = 3 := by
  refine ⟨by decide!, by decide!, ?_⟩
  simp [select_indiv, random_real, select_loop, fitness_at, uniform_state, start_state,
    ones, POPULATION_SIZE, GLIBC_RAND_MAX, List.replicate]
  norm_num

/-- C3: `decode` reads the chromosome as a big-endian binary number: for every chromosome
`c` of length `STRING_LENGTH`, `decode c` is the sum over the positions `i` of
`c[i] * 2^(STRING_LENGTH-1-i)`; and `decode [0,1,1,0,1] = 13`. -/
theorem decode_big_endian (c : Chromosome) (h : c.length = STRING_LENGTH) :
    decode c = ∑ i in Finset.range STRING_LENGTH,
        (if c.getD i false then 1 else 0) * 2 ^ (STRING_LENGTH - 1 - i) ∧
    decode [false, true, true, false, true] = 13 := by
  obtain ⟨a0, a1, a2, a3, a4, rfl⟩ := chromosome_cases c h
  refine ⟨?_, by decide⟩
  simp [decode, decode_loop, allele_at, STRING_LENGTH, Finset.sum_range_succ]
  ring

/-- C3 at the chromosome `10010`. -/
theorem decode_big_endian_witness :
    decode [true, false, false, true, false] = ∑ i in Finset.range STRING_LENGTH,
        (if [true, false, false, true, false].getD i false then 1 else 0)
          * 2 ^ (STRING_LENGTH - 1 - i) ∧
    decode [false, true, true, false, true] = 13 :=
  decode_big_endian [true, false, false, true, false] (by decide)

/-- C4: `decode` is a bijection between the chromosomes of length 5 and the integers
0..31: every decoded value lies in that range, chromosomes that decode to the same
integer are equal, and decoding the 5-bit big-endian encoding of any `n` in 0..31
gives `n` back. -/
theorem decode_bijection :
    (∀ c : Chromosome, c.length = STRING_LENGTH →
      0 ≤ decode c ∧ decode c ≤ 2 ^ STRING_LENGTH - 1) ∧
    (∀ c1 c2 : Chromosome, c1.length = STRING_LENGTH → c2.length = STRING_LENGTH →
      decode c1 = decode c2 → c1 = c2) ∧
    (∀ n : Int, 0 ≤ n → n ≤ 2 ^ STRING_LENGTH - 1 →
      (encode n).length = STRING_LENGTH ∧ decode (encode n) = n) := by
  have back : ∀ c : Chromosome, c.length = STRING_LENGTH → encode (decode c) = c := by
    intro c h
    obtain ⟨a0, a1, a2, a3, a4, rfl⟩ := chromosome_cases c h
    revert a0 a1 a2 a3 a4
    decide
  refine ⟨?_, ?_, ?_⟩
  · intro c h
    obtain ⟨a0, a1, a2, a3, a4, rfl⟩ := chromosome_cases c h
    revert a0 a1 a2 a3 a4
    decide
  · intro c1 c2 h1 h2 h
    rw [← back c1 h1, ← back c2 h2, h]
  · intro n h0 h1
    have h2 : n ≤ 31 := by simpa [STRING_LENGTH] using h1
    interval_cases n <;> decide

/-- C5: for every state whose `oldpop` holds `POPULATION_SIZE` individuals (whatever
their phenotype and fitness fields and whatever `sumfitness` was), after `update_fitness`
the global `sumfitness` is the sum of the fitness fields of all individuals of `oldpop`,
`oldpop` still holds `POPULATION_SIZE` individuals, and every chromosome is as before. -/
theorem update_fitness_sum (s : State) (h : s.oldpop.length = POPULATION_SIZE) :
    (update_fitness s).sumfitness = ((update_fitness s).oldpop.map individual.fitness).sum ∧
    (update_fitness s).oldpop.length = POPULATION_SIZE ∧
    (update_fitness s).oldpop.map individual.chrom = s.oldpop.map individual.chrom := by
  rw [update_fitness_eq s h]
  refine ⟨?_, by simpa using h, ?_⟩
  · simp only [List.map_map]
    rfl
  · simp only [List.map_map]
    rfl

/-- C5 at a state of one `11111` and 39 `00000`. -/
theorem update_fitness_sum_witness :
    (update_fitness first_only_state).sumfitness
      = ((update_fitness first_only_state).oldpop.map individual.fitness).sum ∧
    (update_fitness first_only_state).oldpop.length = POPULATION_SIZE ∧
    (update_fitness first_only_state).oldpop.map individual.chrom
      = first_only_state.oldpop.map individual.chrom :=
  update_fitness_sum first_only_state (by decide)

/-- C7: single-point crossover.  For parents of length `STRING_LENGTH`, a slot `index`
with `index + 1 < POPULATION_SIZE`, a legal draw for the cut point, and no flip in any of
the `2 * STRING_LENGTH` calls of `mutate`: when the cut point drawn is `J`, the child
stored at `newpop[index]` is `parent1[0..J) ++ parent2[J..L)`, the child stored at
`newpop[index+1]` is `parent2[0..J) ++ parent1[J..L)`, and the first `J` alleles of the
first child are the first `J` alleles of `parent1`. -/
theorem crossover_single_point (RAND_MAX : Nat) (rand : Nat → Nat)
    (parent1 parent2 : Chromosome) (index : Nat) (s : State) (J : Nat)
    (hR : 0 < RAND_MAX) (hv : rand s.calls ≤ RAND_MAX)
    (hp1 : parent1.length = STRING_LENGTH) (hp2 : parent2.length = STRING_LENGTH)
    (hlen : s.newpop.length = POPULATION_SIZE)
    (hshape : ∀ x ∈ s.newpop, x.chrom.length = STRING_LENGTH)
    (hidx : index + 1 < POPULATION_SIZE)
    (hno : ∀ k, s.calls + 1 ≤ k → k < s.calls + 1 + 2 * STRING_LENGTH →
      flip_fires RAND_MAX rand PMUTATION k = false)
    (hJ : (draw_jcross RAND_MAX rand s).1 = (J : Int)) :
    (crossover RAND_MAX rand parent1 parent2 index s).newpop[index]?.map individual.chrom
      = some (parent1.take J ++ parent2.drop J) ∧
    (crossover RAND_MAX rand parent1 parent2 index s).newpop[index + 1]?.map individual.chrom
      = some (parent2.take J ++ parent1.drop J) ∧
    ((crossover RAND_MAX rand parent1 parent2 index s).newpop[index]?.map
        (fun x => x.chrom.take J)) = some (parent1.take J) := by
  obtain ⟨hJ1, hJ5⟩ := draw_jcross_bounds RAND_MAX rand s hR hv
  rw [hJ] at hJ1 hJ5
  have hJ1n : 1 ≤ J := by exact_mod_cast hJ1
  have hJ5n : J ≤ STRING_LENGTH := by exact_mod_cast hJ5
  have hst : (draw_jcross RAND_MAX rand s).2 = { s with calls := s.calls + 1 } := rfl
  have htail : crossover_tail RAND_MAX rand parent1 parent2 index
      = crossover_head RAND_MAX rand parent2 parent1 index := rfl
  have hcross : (crossover RAND_MAX rand parent1 parent2 index s).newpop
      = (List.range' J (STRING_LENGTH - J)).foldl (pair_write parent2 parent1 index)
          ((List.range J).foldl (pair_write parent1 parent2 index) s.newpop) := by
    simp only [crossover, hJ, hst, htail, Int.toNat_ofNat]
    rw [crossover_loop_no_flip _ _ _ _ _ (List.range J) _
      (fun k hk1 hk2 => hno k hk1 (by
        simp only [List.length_range] at hk2
        have : (({ s with calls := s.calls + 1 } : State)).calls = s.calls + 1 := rfl
        omega))]
    rw [crossover_loop_no_flip _ _ _ _ _ (List.range' J (STRING_LENGTH - J)) _
      (fun k hk1 hk2 => hno k (by
          have : s.calls + 1 + 2 * (List.range J).length ≤ k := hk1
          omega) (by
        have : k < s.calls + 1 + 2 * (List.range J).length
            + 2 * (List.range' J (STRING_LENGTH - J)).length := hk2
        simp only [List.length_range, List.length_range'] at this
        omega))]
  have hi0 : index < s.newpop.length := by omega
  have hi1 : index + 1 < s.newpop.length := by omega
  have hx : s.newpop[index]? = some s.newpop[index] := List.getElem?_eq_getElem hi0
  have hy : s.newpop[index + 1]? = some s.newpop[index + 1] := List.getElem?_eq_getElem hi1
  obtain ⟨r1, r2⟩ := pair_writes_result parent1 parent2 s.newpop index J _ _ hx hy
    (hshape _ (List.getElem_mem _)) (hshape _ (List.getElem_mem _)) hp1 hp2 hJ1n hJ5n
  rw [hcross]
  refine ⟨r1, r2, ?_⟩
  cases hc : ((List.range' J (STRING_LENGTH - J)).foldl (pair_write parent2 parent1 index)
      ((List.range J).foldl (pair_write parent1 parent2 index) s.newpop))[index]? with
  | none => rw [hc] at r1; simp at r1
  | some z =>
    rw [hc] at r1
    simp only [Option.map_some', Option.some.injEq] at r1 ⊢
    rw [r1, List.take_append_of_le_length (by simp [hp1]; omega)]
    simp

/-- C7 at parents `11111` and `00000`, slot 0 and a draw of one half (cut point 3). -/
theorem crossover_single_point_witness :
    (crossover 100 (fun _ => 50) ones.chrom zeros.chrom 0 start_state).newpop[0]?.map
        individual.chrom = some (ones.chrom.take 3 ++ zeros.chrom.drop 3) ∧
    (crossover 100 (fun _ => 50) ones.chrom zeros.chrom 0 start_state).newpop[0 + 1]?.map
        individual.chrom = some (zeros.chrom.take 3 ++ ones.chrom.drop 3) ∧
    ((crossover 100 (fun _ => 50) ones.chrom zeros.chrom 0 start_state).newpop[0]?.map
        (fun x => x.chrom.take 3)) = some (ones.chrom.take 3) :=
  crossover_single_point 100 (fun _ => 50) ones.chrom zeros.chrom 0 start_state 3
    (by decide) (by decide) (by decide) (by decide) (by decide) (by decide) (by decide)
    (fun _ _ _ => by
      rw [flip_fires_eq]
      simp only [PMUTATION, decide_eq_false_iff_not, not_le]
      norm_num)
    (by decide!)

/-- C8 (the code at a failing input): when `rand()` returns `RAND_MAX`, the cut point
drawn by `crossover` is `STRING_LENGTH` = 5, outside 1..4; the first child is then a copy
of `parent1` and the second a copy of `parent2`. -/
theorem crossover_cut_at_string_length :
    (draw_jcross GLIBC_RAND_MAX (fun _ => GLIBC_RAND_MAX) start_state).1
      = (STRING_LENGTH : Int) ∧
    (crossover GLIBC_RAND_MAX (fun _ => GLIBC_RAND_MAX) [true, true, false, false, true]
        [false, false, true, true, false] 0 start_state).newpop[0]?.map individual.chrom
      = some [true, true, false, false, true] ∧
    (crossover GLIBC_RAND_MAX (fun _ => GLIBC_RAND_MAX) [true, true, false, false, true]
        [false, false, true, true, false] 0 start_state).newpop[1]?.map individual.chrom
      = some [false, false, true, true, false] := by
  decide!

/-- C9 (the code at failing inputs): when `rand()` returns `RAND_MAX`, `random_real`
returns 1 and `random_int(1, 4)` returns 5, above `high`; and with a draw of about 0.9,
`random_int(-3, -2)` returns -1 (the conversion to `int` rounds -1.2 toward zero). -/
theorem random_int_above_high :
    (random_int GLIBC_RAND_MAX (fun _ => GLIBC_RAND_MAX) 1 4 start_state).1 = 5 ∧
    (random_int GLIBC_RAND_MAX (fun _ => 1932735283) (-3) (-2) start_state).1 = -1 := by
  decide!

/-- C10 (counterexample): with probability 0 handed to `flip` and `rand()` returning 0,
`mutate` applied to `true` returns `false` and `mut_count` goes from 0 to 1. -/
theorem mutate_zero_probability_flips :
    (mutate_p GLIBC_RAND_MAX (fun _ => 0) 0 true start_state).1 ≠ true ∧
    (mutate_p GLIBC_RAND_MAX (fun _ => 0) 0 true start_state).2.mut_count
      ≠ start_state.mut_count := by
  decide!

/-- C10 (amended): with probability 0 handed to `flip`, for every allele `a`, every state
and every draw: when `random_real` returns a value above 0, `mutate` returns `a`,
leaves `mut_count` (and all globals) unchanged and only consumes the draw; when
`random_real` returns exactly 0, `flip(0)` is true and `mutate` returns `not a` with
`mut_count` increased by 1. -/
theorem mutate_zero_probability (RAND_MAX : Nat) (rand : Nat → Nat) (a : Allele)
    (s : State) :
    (0 < (random_real RAND_MAX rand s).1 →
      mutate_p RAND_MAX rand 0 a s = (a, { s with calls := s.calls + 1 })) ∧
    ((random_real RAND_MAX rand s).1 = 0 →
      mutate_p RAND_MAX rand 0 a s
        = (!a, { s with calls := s.calls + 1, mut_count := s.mut_count + 1 })) := by
  constructor
  · intro h
    have : ¬ (random_real RAND_MAX rand s).1 ≤ 0 := not_le.2 h
    simp only [random_real] at this
    simp [mutate_p, flip, random_real, this]
  · intro h
    have : (random_real RAND_MAX rand s).1 ≤ 0 := le_of_eq h
    simp only [random_real] at this
    cases a <;> simp [mutate_p, flip, random_real, this]

/-- C10 (amended) at the allele `true` and the first draw of `sample_rand`. -/
theorem mutate_zero_probability_witness :
    (0 < (random_real 100 sample_rand start_state).1 →
      mutate_p 100 sample_rand 0 true start_state
        = (true, { start_state with calls := start_state.calls + 1 })) ∧
    ((random_real 100 sample_rand start_state).1 = 0 →
      mutate_p 100 sample_rand 0 true start_state
        = (!true, { start_state with calls := start_state.calls + 1,
                                     mut_count := start_state.mut_count + 1 })) :=
  mutate_zero_probability 100 sample_rand true start_state

/-- C11: with probability 1 handed to `flip` in place of `PMUTATION`, `mutate` always
flips: for every allele `a`, every state and every value `random_real` can return
(`rand()` at most `RAND_MAX`), `mutate a` returns `not a` (and counts one mutation). -/
theorem mutate_probability_one (RAND_MAX : Nat) (rand : Nat → Nat) (a : Allele)
    (s : State) (hR : 0 < RAND_MAX) (hv : rand s.calls ≤ RAND_MAX) :
    (mutate_p RAND_MAX rand 1 a s).1 = (!a) ∧
    mutate_p RAND_MAX rand 1 a s
      = (!a, { s with calls := s.calls + 1, mut_count := s.mut_count + 1 }) := by
  have h1 : (random_real RAND_MAX rand s).1 ≤ 1 := (random_real_bounds _ _ s hR hv).2
  simp only [random_real] at h1
  cases a <;> simp [mutate_p, flip, random_real, h1]

/-- C11 at the allele `true`, `RAND_MAX = 100` and the first draw of `sample_rand`. -/
theorem mutate_probability_one_witness :
    (mutate_p 100 sample_rand 1 true start_state).1 = (!true) ∧
    mutate_p 100 sample_rand 1 true start_state
      = (!true, { start_state with calls := start_state.calls + 1,
                                   mut_count := start_state.mut_count + 1 }) :=
  mutate_probability_one 100 sample_rand true start_state (by decide) (by decide)

/-- C15 (counterexample): in the evaluated population of 40 individuals `00000`
(`sumfitness = 0`) no value of the draw makes `select_indiv` return index 1. -/
theorem select_indiv_zero_fitness_never_one :
    ¬ ∃ v : Nat, (select_indiv GLIBC_RAND_MAX (fun _ => v) 0 zero_fitness_state).1 = 1 := by
  rintro ⟨v, hv⟩
  simp [select_indiv, random_real, select_loop, zero_fitness_state] at hv

/-- C15 (amended): when `sumfitness` is 0, `select_indiv` returns index 0 for every
draw, every population and every value past the end of `oldpop`: the target is 0, the
walk does not start, and the result does not depend on the draw. -/
theorem select_indiv_zero_fitness (RAND_MAX : Nat) (rand : Nat → Nat) (oob : Int)
    (s : State) (h : s.sumfitness = 0) :
    (select_indiv RAND_MAX rand oob s).1 = 0 := by
  simp [select_indiv, random_real, select_loop, h]

/-- C15 (amended) at the all-`00000` population and a draw of about one half. -/
theorem select_indiv_zero_fitness_witness :
    (select_indiv GLIBC_RAND_MAX (fun _ => 1073741824) 0 zero_fitness_state).1 = 0 :=
  select_indiv_zero_fitness GLIBC_RAND_MAX (fun _ => 1073741824) 0 zero_fitness_state
    (by decide)

/-- C17 (counterexample): when `rand()` returns `RAND_MAX`, `random_real` returns
exactly 1, which is not below 1. -/
theorem random_real_reaches_one :
    ¬ (random_real GLIBC_RAND_MAX (fun _ => GLIBC_RAND_MAX) start_state).1 < 1 := by
  decide!

/-- C17 (amended): for every value `v` that `rand()` can return (`v ≤ RAND_MAX`),
`random_real` returns `r` with `0 ≤ r ≤ 1`, the closed interval of `random_nums.h`, and
`r = 1` when `v = RAND_MAX`. -/
theorem random_real_closed_interval (RAND_MAX : Nat) (rand : Nat → Nat) (s : State)
    (hR : 0 < RAND_MAX) (hv : rand s.calls ≤ RAND_MAX) :
    0 ≤ (random_real RAND_MAX rand s).1 ∧ (random_real RAND_MAX rand s).1 ≤ 1 ∧
    (rand s.calls = RAND_MAX → (random_real RAND_MAX rand s).1 = 1) := by
  obtain ⟨h0, h1⟩ := random_real_bounds RAND_MAX rand s hR hv
  refine ⟨h0, h1, ?_⟩
  intro he
  have hR1 : (RAND_MAX : ℚ) ≠ 0 := by exact_mod_cast hR.ne'
  simp only [random_real, he]
  exact div_self hR1

/-- C17 (amended) at `RAND_MAX = 2^31 - 1` and `rand()` returning `RAND_MAX`. -/
theorem random_real_closed_interval_witness :
    0 ≤ (random_real GLIBC_RAND_MAX (fun _ => GLIBC_RAND_MAX) start_state).1 ∧
    (random_real GLIBC_RAND_MAX (fun _ => GLIBC_RAND_MAX) start_state).1 ≤ 1 ∧
    ((fun _ => GLIBC_RAND_MAX) start_state.calls = GLIBC_RAND_MAX →
      (random_real GLIBC_RAND_MAX (fun _ => GLIBC_RAND_MAX) start_state).1 = 1) :=
  random_real_closed_interval GLIBC_RAND_MAX (fun _ => GLIBC_RAND_MAX) start_state
    (by decide) (by decide)

/-- C18: the walk that `select_indiv` really performs.  For every population of
`POPULATION_SIZE` individuals and the target `t = random_real() * sumfitness`, the
result `j` is at most `POPULATION_SIZE`; when `j < POPULATION_SIZE` the stopping
condition holds at `j` (`j = 0` and `t ≤ 0`, or `j ≥ 1` and
`fitness[1] + ... + fitness[j] ≥ t`), and it holds at no index below `j`, so `j` is the
least such index and `POPULATION_SIZE` when there is none.  Index 0 is returned exactly
when `t ≤ 0`, the result is the same whatever value is read at position
`POPULATION_SIZE`, and, for fitness values that are not negative and `sumfitness` their
sum, `POPULATION_SIZE` is returned exactly when `t > sumfitness - fitness[0]`. -/
theorem select_indiv_walk (RAND_MAX : Nat) (rand : Nat → Nat) (oob : Int) (s : State)
    (hlen : s.oldpop.length = POPULATION_SIZE) :
    (select_indiv RAND_MAX rand oob s).1 ≤ POPULATION_SIZE ∧
    ((select_indiv RAND_MAX rand oob s).1 < POPULATION_SIZE →
      walk_stops s.oldpop (select_target RAND_MAX rand s)
        (select_indiv RAND_MAX rand oob s).1) ∧
    (∀ i, i < (select_indiv RAND_MAX rand oob s).1 →
      ¬ walk_stops s.oldpop (select_target RAND_MAX rand s) i) ∧
    ((select_indiv RAND_MAX rand oob s).1 = 0 ↔ select_target RAND_MAX rand s ≤ 0) ∧
    (∀ oob1 : Int, (select_indiv RAND_MAX rand oob1 s).1
      = (select_indiv RAND_MAX rand oob s).1) ∧
    ((∀ x ∈ s.oldpop, 0 ≤ x.fitness) →
      s.sumfitness = (s.oldpop.map individual.fitness).sum →
      ((select_indiv RAND_MAX rand oob s).1 = POPULATION_SIZE ↔
        ((s.sumfitness - fitness_at s.oldpop oob 0 : Int) : ℚ)
          < select_target RAND_MAX rand s)) := by
  have hsel : ∀ o : Int, (select_indiv RAND_MAX rand o s).1
      = select_loop s.oldpop o (select_target RAND_MAX rand s) (POPULATION_SIZE + 1) 0 0 :=
    fun _ => rfl
  have hspec := fun o : Int => select_loop_spec s.oldpop o (select_target RAND_MAX rand s)
    hlen (POPULATION_SIZE + 1) 0 0 (Nat.zero_le _) (le_refl _)
    (fun _ => by simp [skipping_sum_zero])
  obtain ⟨-, r2, r3, r4⟩ := hspec oob
  rw [← hsel] at r2 r3 r4
  have hleast : ∀ i, i < (select_indiv RAND_MAX rand oob s).1 →
      ¬ walk_stops s.oldpop (select_target RAND_MAX rand s) i := by
    intro i hi hw
    exact absurd ((walk_stops_iff _ _ _).1 hw) (not_le.2 (r4 i (Nat.zero_le _) hi))
  refine ⟨r2, fun h => (walk_stops_iff _ _ _).2 (r3 h), hleast, ?_, ?_, ?_⟩
  · constructor
    · intro h0
      have := r3 (by rw [h0]; decide)
      rw [h0, skipping_sum_zero] at this
      simpa using this
    · intro ht
      by_contra hne
      have := r4 0 (le_refl _) (Nat.pos_of_ne_zero hne)
      rw [skipping_sum_zero] at this
      exact absurd ht (not_le.2 (by simpa using this))
  · intro oob1
    obtain ⟨-, q2, q3, q4⟩ := hspec oob1
    rw [← hsel] at q2 q3 q4
    rcases Nat.lt_trichotomy (select_indiv RAND_MAX rand oob1 s).1
        (select_indiv RAND_MAX rand oob s).1 with h | h | h
    · exact absurd (q3 (by omega)) (not_le.2 (r4 _ (Nat.zero_le _) h))
    · exact h
    · exact absurd (r3 (by omega)) (not_le.2 (q4 _ (Nat.zero_le _) h))
  · intro hpos hsum
    have hlast := skipping_sum_last s.oldpop oob hlen
    rw [← hsum] at hlast
    rw [← hlast]
    constructor
    · intro hN
      exact r4 _ (Nat.zero_le _) (by rw [hN]; decide)
    · intro ht
      by_contra hne
      have hlt : (select_indiv RAND_MAX rand oob s).1 < POPULATION_SIZE :=
        lt_of_le_of_ne r2 hne
      have hmono := skipping_sum_mono s.oldpop hpos (POPULATION_SIZE - 1)
        (select_indiv RAND_MAX rand oob s).1 (by omega) (by rw [hlen]; decide)
      have hq : (skipping_sum s.oldpop (select_indiv RAND_MAX rand oob s).1 : ℚ)
          ≤ (skipping_sum s.oldpop (POPULATION_SIZE - 1) : ℚ) := by exact_mod_cast hmono
      exact absurd (r3 hlt) (not_le.2 (lt_of_le_of_lt hq ht))

/-- C18 at an evaluated population of 40 individuals `11111` with a draw of about 1/16:
the walk returns 3. -/
theorem select_indiv_walk_witness :
    (select_indiv GLIBC_RAND_MAX (fun _ => 134217728) 0 uniform_state).1
      ≤ POPULATION_SIZE ∧
    ((select_indiv GLIBC_RAND_MAX (fun _ => 134217728) 0 uniform_state).1
        < POPULATION_SIZE →
      walk_stops uniform_state.oldpop
        (select_target GLIBC_RAND_MAX (fun _ => 134217728) uniform_state)
        (select_indiv GLIBC_RAND_MAX (fun _ => 134217728) 0 uniform_state).1) ∧
    (∀ i, i < (select_indiv GLIBC_RAND_MAX (fun _ => 134217728) 0 uniform_state).1 →
      ¬ walk_stops uniform_state.oldpop
        (select_target GLIBC_RAND_MAX (fun _ => 134217728) uniform_state) i) ∧
    ((select_indiv GLIBC_RAND_MAX (fun _ => 134217728) 0 uniform_state).1 = 0 ↔
      select_target GLIBC_RAND_MAX (fun _ => 134217728) uniform_state ≤ 0) ∧
    (∀ oob1 : Int, (select_indiv GLIBC_RAND_MAX (fun _ => 134217728) oob1 uniform_state).1
      = (select_indiv GLIBC_RAND_MAX (fun _ => 134217728) 0 uniform_state).1) ∧
    ((∀ x ∈ uniform_state.oldpop, 0 ≤ x.fitness) →
      uniform_state.sumfitness = (uniform_state.oldpop.map individual.fitness).sum →
      ((select_indiv GLIBC_RAND_MAX (fun _ => 134217728) 0 uniform_state).1
          = POPULATION_SIZE ↔
        ((uniform_state.sumfitness - fitness_at uniform_state.oldpop 0 0 : Int) : ℚ)
          < select_target GLIBC_RAND_MAX (fun _ => 134217728) uniform_state)) :=
  select_indiv_walk GLIBC_RAND_MAX (fun _ => 134217728) 0 uniform_state (by decide)

/-- C12: `mutate` and `mut_count`.  For every allele `a`, state and draw: when
`flip(PMUTATION)` is true on the draw, `mutate a` returns `not a` and increases
`mut_count` by exactly 1; when it is false, `mutate a` returns `a` and leaves `mut_count`
unchanged; in both cases no other global changes (one draw is consumed).  And after
any `crossover` (legal draw for the cut point `J`, slots `index` and `index + 1` inside
`newpop`), `mut_count` has grown by exactly the number of positions at which the two
children differ from the parent alleles they were copied from. -/
theorem mutate_counts_flips :
    (∀ (RAND_MAX : Nat) (rand : Nat → Nat) (a : Allele) (s : State),
      ((flip RAND_MAX rand PMUTATION s).1 = true →
        mutate RAND_MAX rand a s
          = (!a, { s with mut_count := s.mut_count + 1, calls := s.calls + 1 })) ∧
      ((flip RAND_MAX rand PMUTATION s).1 = false →
        mutate RAND_MAX rand a s = (a, { s with calls := s.calls + 1 }))) ∧
    (∀ (RAND_MAX : Nat) (rand : Nat → Nat) (parent1 parent2 : Chromosome) (index : Nat)
        (s : State) (J : Nat),
      0 < RAND_MAX → rand s.calls ≤ RAND_MAX →
      parent1.length = STRING_LENGTH → parent2.length = STRING_LENGTH →
      s.newpop.length = POPULATION_SIZE →
      (∀ x ∈ s.newpop, x.chrom.length = STRING_LENGTH) →
      index + 1 < POPULATION_SIZE →
      (draw_jcross RAND_MAX rand s).1 = (J : Int) →
      ∃ c1 c2 : Chromosome,
        (crossover RAND_MAX rand parent1 parent2 index s).newpop[index]?.map
          individual.chrom = some c1 ∧
        (crossover RAND_MAX rand parent1 parent2 index s).newpop[index + 1]?.map
          individual.chrom = some c2 ∧
        (crossover RAND_MAX rand parent1 parent2 index s).mut_count
          = s.mut_count + diff_count c1 (source_first parent1 parent2 J)
              + diff_count c2 (source_first parent2 parent1 J)) := by
  constructor
  · intro RAND_MAX rand a s
    simp only [mutate, mutate_p]
    constructor
    · intro h
      rw [flip_eq] at h ⊢
      simp only [] at h
      cases a <;> simp [h]
    · intro h
      rw [flip_eq] at h ⊢
      simp only [] at h
      simp [h]
  · intro RAND_MAX rand parent1 parent2 index s J hR hv hp1 hp2 hlen hshape hidx hJ
    obtain ⟨hJ1, hJ5, r1, -, r3, r4⟩ := crossover_children RAND_MAX rand parent1 parent2
      index s J hR hv hlen hshape hidx hJ
    refine ⟨_, _, r3, r4, ?_⟩
    rw [r1, add_assoc, child_diff_count RAND_MAX rand parent1 parent2 J s.calls hp1 hp2
      hJ1 hJ5]

/-- C12 at a `crossover` of `11111` and `00000` under `sample_rand`, whose draw number 7
makes `flip(PMUTATION)` true: the children differ from their sources at as many
positions as `mut_count` has grown. -/
theorem mutate_counts_flips_witness :
    ∃ c1 c2 : Chromosome,
      (crossover 100 sample_rand ones.chrom zeros.chrom 0 start_state).newpop[0]?.map
        individual.chrom = some c1 ∧
      (crossover 100 sample_rand ones.chrom zeros.chrom 0 start_state).newpop[0 + 1]?.map
        individual.chrom = some c2 ∧
      (crossover 100 sample_rand ones.chrom zeros.chrom 0 start_state).mut_count
        = start_state.mut_count + diff_count c1 (source_first ones.chrom zeros.chrom 1)
            + diff_count c2 (source_first zeros.chrom ones.chrom 1) :=
  mutate_counts_flips.2 100 sample_rand ones.chrom zeros.chrom 0 start_state 1
    (by decide) (by decide) (by decide) (by decide) (by decide) (by decide) (by decide)
    (by decide!)

/-- C14: `crossover (parent1, parent2, index)` with `index + 2 ≤ POPULATION_SIZE`
writes only the chromosomes of `newpop[index]` and `newpop[index + 1]` (and possibly
`mut_count`), for every draw: `oldpop` (so both parents), `sumfitness`, `curr_gen` and
`xover_count` are unchanged, `newpop` keeps its length, every other slot of `newpop` is
unchanged, and no `phenotype` or `fitness` field of `newpop` changes. -/
theorem crossover_writes_two_slots (RAND_MAX : Nat) (rand : Nat → Nat)
    (parent1 parent2 : Chromosome) (index : Nat) (s : State)
    (hlen : s.newpop.length = POPULATION_SIZE) (hidx : index + 2 ≤ POPULATION_SIZE) :
    (crossover RAND_MAX rand parent1 parent2 index s).oldpop = s.oldpop ∧
    (crossover RAND_MAX rand parent1 parent2 index s).sumfitness = s.sumfitness ∧
    (crossover RAND_MAX rand parent1 parent2 index s).curr_gen = s.curr_gen ∧
    (crossover RAND_MAX rand parent1 parent2 index s).xover_count = s.xover_count ∧
    (crossover RAND_MAX rand parent1 parent2 index s).newpop.length = POPULATION_SIZE ∧
    (∀ k : Nat, k ≠ index → k ≠ index + 1 →
      (crossover RAND_MAX rand parent1 parent2 index s).newpop[k]? = s.newpop[k]?) ∧
    (∀ k : Nat,
      (crossover RAND_MAX rand parent1 parent2 index s).newpop[k]?.map
          (fun x : individual => (x.phenotype, x.fitness))
        = s.newpop[k]?.map (fun x : individual => (x.phenotype, x.fitness))) := by
  have _hin : index + 1 < s.newpop.length := by omega
  obtain ⟨h1, h2, h3, h4, h5, h6, h7⟩ :=
    crossover_frame_holds RAND_MAX rand parent1 parent2 index s
  exact ⟨h4, h2, h1, h3, h5.trans hlen, h6, h7⟩

/-- C14 at a `crossover` of `11111` and `00000` into slots 0 and 1 under
`sample_rand`. -/
theorem crossover_writes_two_slots_witness :
    (crossover 100 sample_rand ones.chrom zeros.chrom 0 uniform_state).oldpop
      = uniform_state.oldpop ∧
    (crossover 100 sample_rand ones.chrom zeros.chrom 0 uniform_state).sumfitness
      = uniform_state.sumfitness ∧
    (crossover 100 sample_rand ones.chrom zeros.chrom 0 uniform_state).curr_gen
      = uniform_state.curr_gen ∧
    (crossover 100 sample_rand ones.chrom zeros.chrom 0 uniform_state).xover_count
      = uniform_state.xover_count ∧
    (crossover 100 sample_rand ones.chrom zeros.chrom 0 uniform_state).newpop.length
      = POPULATION_SIZE ∧
    (∀ k : Nat, k ≠ 0 → k ≠ 0 + 1 →
      (crossover 100 sample_rand ones.chrom zeros.chrom 0 uniform_state).newpop[k]?
        = uniform_state.newpop[k]?) ∧
    (∀ k : Nat,
      (crossover 100 sample_rand ones.chrom zeros.chrom 0 uniform_state).newpop[k]?.map
          (fun x : individual => (x.phenotype, x.fitness))
        = uniform_state.newpop[k]?.map (fun x : individual => (x.phenotype, x.fitness))) :=
  crossover_writes_two_slots 100 sample_rand ones.chrom zeros.chrom 0 uniform_state
    (by decide) (by decide)

/-- C19: allele-count conservation of `crossover`.  For parents of length
`STRING_LENGTH`, slots `index`, `index + 1` inside `newpop`, a legal draw giving the cut
point `J` and no flip in the calls of `mutate`: the children are
`parent1[0..J) ++ parent2[J..L)` and `parent2[0..J) ++ parent1[J..L)`; at each position
`j` the pair (child1[j], child2[j]) is (parent1[j], parent2[j]) or
(parent2[j], parent1[j]); the two children together hold as many 1-alleles as the two
parents together; identical parents give two copies of the parent; and `crossover` with
the parents swapped gives the two children swapped. -/
theorem crossover_conserves_alleles (RAND_MAX : Nat) (rand : Nat → Nat)
    (parent1 parent2 : Chromosome) (index : Nat) (s : State) (J : Nat)
    (hR : 0 < RAND_MAX) (hv : rand s.calls ≤ RAND_MAX)
    (hp1 : parent1.length = STRING_LENGTH) (hp2 : parent2.length = STRING_LENGTH)
    (hlen : s.newpop.length = POPULATION_SIZE)
    (hshape : ∀ x ∈ s.newpop, x.chrom.length = STRING_LENGTH)
    (hidx : index + 1 < POPULATION_SIZE)
    (hno : ∀ k, s.calls + 1 ≤ k → k < s.calls + 1 + 2 * STRING_LENGTH →
      flip_fires RAND_MAX rand PMUTATION k = false)
    (hJ : (draw_jcross RAND_MAX rand s).1 = (J : Int)) :
    (crossover RAND_MAX rand parent1 parent2 index s).newpop[index]?.map individual.chrom
      = some (source_first parent1 parent2 J) ∧
    (crossover RAND_MAX rand parent1 parent2 index s).newpop[index + 1]?.map individual.chrom
      = some (source_first parent2 parent1 J) ∧
    (∀ j, j < STRING_LENGTH →
      (allele_at (source_first parent1 parent2 J) j = allele_at parent1 j ∧
        allele_at (source_first parent2 parent1 J) j = allele_at parent2 j) ∨
      (allele_at (source_first parent1 parent2 J) j = allele_at parent2 j ∧
        allele_at (source_first parent2 parent1 J) j = allele_at parent1 j)) ∧
    (source_first parent1 parent2 J).count true + (source_first parent2 parent1 J).count true
      = parent1.count true + parent2.count true ∧
    (parent1 = parent2 →
      source_first parent1 parent2 J = parent1 ∧ source_first parent2 parent1 J = parent1) ∧
    (crossover RAND_MAX rand parent2 parent1 index s).newpop[index]?.map individual.chrom
      = some (source_first parent2 parent1 J) ∧
    (crossover RAND_MAX rand parent2 parent1 index s).newpop[index + 1]?.map individual.chrom
      = some (source_first parent1 parent2 J) := by
  obtain ⟨hJ1, hJ5, -, -, r3, r4⟩ := crossover_children RAND_MAX rand parent1 parent2
    index s J hR hv hlen hshape hidx hJ
  obtain ⟨-, -, -, -, q3, q4⟩ := crossover_children RAND_MAX rand parent2 parent1
    index s J hR hv hlen hshape hidx hJ
  obtain ⟨e1, e2⟩ := child_no_flip RAND_MAX rand parent1 parent2 J s.calls hp1 hp2 hJ1 hJ5 hno
  obtain ⟨d1, d2⟩ := child_no_flip RAND_MAX rand parent2 parent1 J s.calls hp2 hp1 hJ1 hJ5 hno
  obtain ⟨f1, f2, f3⟩ := source_first_facts parent1 parent2 J hp1 hp2 hJ1 hJ5
  rw [e1] at r3
  rw [e2] at r4
  rw [d1] at q3
  rw [d2] at q4
  exact ⟨r3, r4, f1, f2, f3, q3, q4⟩

/-- C19 at parents `11111` and `00000`, slot 0 and a draw of one half (cut point 3). -/
theorem crossover_conserves_alleles_witness :
    (crossover 100 (fun _ => 50) ones.chrom zeros.chrom 0 start_state).newpop[0]?.map
        individual.chrom = some (source_first ones.chrom zeros.chrom 3) ∧
    (crossover 100 (fun _ => 50) ones.chrom zeros.chrom 0 start_state).newpop[0 + 1]?.map
        individual.chrom = some (source_first zeros.chrom ones.chrom 3) ∧
    (∀ j, j < STRING_LENGTH →
      (allele_at (source_first ones.chrom zeros.chrom 3) j = allele_at ones.chrom j ∧
        allele_at (source_first zeros.chrom ones.chrom 3) j = allele_at zeros.chrom j) ∨
      (allele_at (source_first ones.chrom zeros.chrom 3) j = allele_at zeros.chrom j ∧
        allele_at (source_first zeros.chrom ones.chrom 3) j = allele_at ones.chrom j)) ∧
    (source_first ones.chrom zeros.chrom 3).count true
        + (source_first zeros.chrom ones.chrom 3).count true
      = ones.chrom.count true + zeros.chrom.count true ∧
    (ones.chrom = zeros.chrom →
      source_first ones.chrom zeros.chrom 3 = ones.chrom ∧
        source_first zeros.chrom ones.chrom 3 = ones.chrom) ∧
    (crossover 100 (fun _ => 50) zeros.chrom ones.chrom 0 start_state).newpop[0]?.map
        individual.chrom = some (source_first zeros.chrom ones.chrom 3) ∧
    (crossover 100 (fun _ => 50) zeros.chrom ones.chrom 0 start_state).newpop[0 + 1]?.map
        individual.chrom = some (source_first ones.chrom zeros.chrom 3) :=
  crossover_conserves_alleles 100 (fun _ => 50) ones.chrom zeros.chrom 0 start_state 3
    (by decide) (by decide) (by decide) (by decide) (by decide) (by decide) (by decide)
    (fun _ _ _ => by
      rw [flip_fires_eq]
      simp only [PMUTATION, decide_eq_false_iff_not, not_le]
      norm_num)
    (by decide!)

/-- C13: one `generation` step.  From a state `s` with populations of
`POPULATION_SIZE` individuals of length `STRING_LENGTH`, under legal draws, when each of
the `POPULATION_SIZE / 2` pairs selects two valid parent indices and no `mutate` flips:
`generation` completes, `curr_gen` has increased by exactly 1, and for each pair `k`,
with `m1`, `m2` the indices selected and `c` the cut point drawn for that pair, the new
`oldpop` holds `P[m1][0..c) ++ P[m2][c..L)` at slot `2k` and
`P[m2][0..c) ++ P[m1][c..L)` at slot `2k + 1`, where `P` is `oldpop` as it was in `s`. -/
theorem generation_offspring (RAND_MAX : Nat) (rand : Nat → Nat) (oob : Int) (s : State)
    (hR : 0 < RAND_MAX) (hv : ∀ n, rand n ≤ RAND_MAX)
    (hold : s.oldpop.length = POPULATION_SIZE) (hnew : s.newpop.length = POPULATION_SIZE)
    (hso : ∀ x ∈ s.oldpop, x.chrom.length = STRING_LENGTH)
    (hsn : ∀ x ∈ s.newpop, x.chrom.length = STRING_LENGTH)
    (hmates : ∀ k, k < POPULATION_SIZE / 2 →
      mate_first RAND_MAX rand oob s k < POPULATION_SIZE ∧
      mate_second RAND_MAX rand oob s k < POPULATION_SIZE)
    (hno : ∀ k, k < POPULATION_SIZE / 2 → ∀ i, i < 2 * STRING_LENGTH →
      flip_fires RAND_MAX rand PMUTATION (s.calls + DRAWS_PER_PAIR * k + 3 + i) = false) :
    ∃ s1, generation RAND_MAX rand oob s = some s1 ∧
      s1.curr_gen = s.curr_gen + 1 ∧ s1.oldpop.length = POPULATION_SIZE ∧
      ∀ k, k < POPULATION_SIZE / 2 →
        s1.oldpop[2 * k]?.map individual.chrom
          = some (source_first (parent_chrom s.oldpop (mate_first RAND_MAX rand oob s k))
              (parent_chrom s.oldpop (mate_second RAND_MAX rand oob s k))
              (cut_point RAND_MAX rand s k)) ∧
        s1.oldpop[2 * k + 1]?.map individual.chrom
          = some (source_first (parent_chrom s.oldpop (mate_second RAND_MAX rand oob s k))
              (parent_chrom s.oldpop (mate_first RAND_MAX rand oob s k))
              (cut_point RAND_MAX rand s k)) := by
  obtain ⟨s1, g1, g2, g3, -, -, -, -, g8⟩ := generation_pairs RAND_MAX rand oob s hR hv hold hnew
    hso hsn hmates hno
  exact ⟨s1, g1, g2, g3, g8⟩

/-- C13 at the evaluated population of 40 individuals `11111`, `RAND_MAX = 100` and
every call of `rand()` returning 1: every pair selects index 1 twice and no `mutate`
flips. -/
theorem generation_offspring_witness :
    ∃ s1, generation 100 (fun _ => 1) 0 uniform_state = some s1 ∧
      s1.curr_gen = uniform_state.curr_gen + 1 ∧ s1.oldpop.length = POPULATION_SIZE ∧
      ∀ k, k < POPULATION_SIZE / 2 →
        s1.oldpop[2 * k]?.map individual.chrom
          = some (source_first
              (parent_chrom uniform_state.oldpop (mate_first 100 (fun _ => 1) 0 uniform_state k))
              (parent_chrom uniform_state.oldpop (mate_second 100 (fun _ => 1) 0 uniform_state k))
              (cut_point 100 (fun _ => 1) uniform_state k)) ∧
        s1.oldpop[2 * k + 1]?.map individual.chrom
          = some (source_first
              (parent_chrom uniform_state.oldpop (mate_second 100 (fun _ => 1) 0 uniform_state k))
              (parent_chrom uniform_state.oldpop (mate_first 100 (fun _ => 1) 0 uniform_state k))
              (cut_point 100 (fun _ => 1) uniform_state k)) :=
  generation_offspring 100 (fun _ => 1) 0 uniform_state (by decide) (fun _ => by norm_num)
    (by decide) (by decide) (by decide) (by decide) (by decide!)
    (fun _ _ _ _ => by
      rw [flip_fires_eq]
      simp only [PMUTATION, decide_eq_false_iff_not, not_le]
      norm_num)

/-- C20: arithmetic bounds.  For every chromosome of length 5, `0 ≤ decode c ≤ 31` and
`0 ≤ fitness (decode c) ≤ 961`, and `decode` and `fitness` with every `int` operation
checked against the 32-bit signed range return those same values; for every state with
`POPULATION_SIZE` individuals of length 5, after `update_fitness`
`0 ≤ sumfitness ≤ POPULATION_SIZE * 961 = 38440`, and `update_fitness` with every `int`
operation checked returns the same state: no intermediate value overflows. -/
theorem no_int_overflow :
    (∀ c : Chromosome, c.length = STRING_LENGTH →
      0 ≤ decode c ∧ decode c ≤ 31 ∧ 0 ≤ fitness (decode c) ∧ fitness (decode c) ≤ 961 ∧
      decode_checked c = some (decode c) ∧
      fitness_checked (decode c) = some (fitness (decode c))) ∧
    (∀ s : State, s.oldpop.length = POPULATION_SIZE →
      (∀ x ∈ s.oldpop, x.chrom.length = STRING_LENGTH) →
      0 ≤ (update_fitness s).sumfitness ∧
      (update_fitness s).sumfitness ≤ (POPULATION_SIZE : Int) * 961 ∧
      (POPULATION_SIZE : Int) * 961 = 38440 ∧
      update_fitness_checked s = some (update_fitness s)) := by
  refine ⟨decode_bounds, ?_⟩
  intro s hlen hsh
  obtain ⟨b1, b2⟩ := fitness_sum_bounds s.oldpop hsh
  rw [hlen] at b2
  have hfold := update_fitness_checked_fold s s.oldpop [] 0 hsh (le_refl _) (by
    rw [hlen]; decide)
  simp only [List.length_nil, List.nil_append, zero_add, hlen] at hfold
  rw [update_fitness_eq s hlen]
  refine ⟨b1, by rw [mul_comm]; exact b2, by decide, ?_⟩
  rw [update_fitness_checked, List.range_eq_range']
  exact hfold

/-- C20 at the chromosome `11111` and at the evaluated population of 40 individuals
`11111`, where the bounds 31, 961 and 38440 are reached. -/
theorem no_int_overflow_witness :
    (0 ≤ decode ones.chrom ∧ decode ones.chrom ≤ 31 ∧ 0 ≤ fitness (decode ones.chrom) ∧
      fitness (decode ones.chrom) ≤ 961 ∧
      decode_checked ones.chrom = some (decode ones.chrom) ∧
      fitness_checked (decode ones.chrom) = some (fitness (decode ones.chrom))) ∧
    (0 ≤ (update_fitness uniform_state).sumfitness ∧
      (update_fitness uniform_state).sumfitness ≤ (POPULATION_SIZE : Int) * 961 ∧
      (POPULATION_SIZE : Int) * 961 = 38440 ∧
      update_fitness_checked uniform_state = some (update_fitness uniform_state)) :=
  ⟨no_int_overflow.1 ones.chrom (by decide),
   no_int_overflow.2 uniform_state (by decide) (by decide)⟩

end GA
